import Mathlib

/-!
# User-management backend: shallow embedding and verified properties

The Go sources embedded here are

* `internal/service/user_service.go`  (the user domain service),
* `internal/handler/user_handler.go`  (the HTTP transport adapter),
* `pkg/response/response.go`          (the JSON envelopes).

Conventions of the embedding.

* Effects are explicit.  A `World σ` carries the state `σ` of everything outside the
  service (store contents, entropy used by the hasher) and the `trace` of the calls made so
  far: every call of a store method, of the hasher and of `logger.Error` appends one
  `Event`.  An operation is a function `World σ → result × World σ`.
* Go `int` is the 64-bit two's-complement integer of the server targets; it is embedded as
  `Int`, and the one arithmetic operation that can overflow is wrapped with `wrapInt`.
* `float64` is embedded exactly (round to nearest, ties to even, 53-bit significand) as a
  sign, a natural significand and an integer exponent.
-/

namespace Backend

/-! ## Go values -/

/-- A Go `error` value.  `ErrNoDocuments` is the sentinel `mongo.ErrNoDocuments`, `New t` is
`errors.New(t)`, and `Wrap t cause` is an error with text `t` that wraps `cause`. -/
inductive GoError
  | ErrNoDocuments
  | New (text : String)
  | Wrap (text : String) (cause : GoError)
  deriving DecidableEq, Repr

/-- The method `err.Error()`. -/
def GoError.Error : GoError → String
  | .ErrNoDocuments => "mongo: no documents in result"
  | .New t => t
  | .Wrap t _ => t

/-- The test `errors.Is(err, mongo.ErrNoDocuments)`: the sentinel itself or an error that
wraps it. -/
def GoError.IsErrNoDocuments : GoError → Bool
  | .ErrNoDocuments => true
  | .New _ => false
  | .Wrap _ c => c.IsErrNoDocuments

/-- Smallest value of the 64-bit Go `int`. -/
def minInt : Int := -(2 ^ 63)

/-- Largest value of the 64-bit Go `int`. -/
def maxInt : Int := 2 ^ 63 - 1

/-- Reduction of a mathematical integer to the 64-bit two's-complement `int` Go computes. -/
def wrapInt (x : Int) : Int := (x + 2 ^ 63) % 2 ^ 64 - 2 ^ 63

/-- A `time.Time`, as a count of nanoseconds; `0` is the zero value. -/
abbrev Time := Int

/-! ## Package `domain`

The package `backend/internal/domain` is not among the sources; its types are reconstructed
from the way the service and the handler use them and from the data model of the
specification. -/

namespace domain

/-- Modelled from the spec: `primitive.ObjectID`, the 12-byte identifier of the
document store that `domain.User.ID` holds. -/
structure ObjectID where
  bytes : List (Fin 256)
  deriving DecidableEq, Repr

/-- The zero identifier a freshly built entity holds. -/
def NilObjectID : ObjectID := ⟨List.replicate 12 0⟩

/-- One lower-case hexadecimal digit. -/
def hexDigit (n : Nat) : Char := "0123456789abcdef".toList.getD n '0'

/-- The method `ID.Hex()`: two lower-case hexadecimal digits per byte. -/
def ObjectID.Hex (id : ObjectID) : String :=
  String.mk (id.bytes.flatMap fun b => [hexDigit (b.val / 16), hexDigit (b.val % 16)])

/-- Modelled from the spec: the entity `domain.User` (section 3 of the specification, with the
field names the service uses).  `Password` holds the credential hash. -/
structure User where
  ID : ObjectID
  Email : String
  Username : String
  Password : String
  FirstName : String
  LastName : String
  IsActive : Bool
  CreatedAt : Time
  UpdatedAt : Time
  deriving DecidableEq, Repr

/-- Modelled from the spec: `domain.CreateUserRequest`; `Password` is the plaintext
credential. -/
structure CreateUserRequest where
  Email : String
  Username : String
  Password : String
  FirstName : String
  LastName : String
  deriving DecidableEq, Repr

/-- Modelled from the spec: `domain.UpdateUserRequest`; each field is a Go pointer, `none`
being the nil pointer of an absent field. -/
structure UpdateUserRequest where
  FirstName : Option String
  LastName : Option String
  IsActive : Option Bool
  deriving DecidableEq, Repr

/-- Modelled from the spec: `domain.UserResponse`, the public projection, with exactly the
eight fields `toUserResponse` fills. -/
structure UserResponse where
  ID : String
  Email : String
  Username : String
  FirstName : String
  LastName : String
  IsActive : Bool
  CreatedAt : Time
  UpdatedAt : Time
  deriving DecidableEq, Repr

/-- What the store writes into the entity behind the pointer handed to `Create`:
"store assigns id/timestamps" (section 3 of the specification). -/
structure Assigned where
  ID : ObjectID
  CreatedAt : Time
  UpdatedAt : Time
  deriving DecidableEq, Repr

/-- The entity as the caller sees it through its pointer after a successful `Create`. -/
def Assigned.applyTo (a : Assigned) (u : User) : User :=
  { u with ID := a.ID, CreatedAt := a.CreatedAt, UpdatedAt := a.UpdatedAt }

/-- Modelled from the spec: the interface `domain.UserRepository` (section 6 of the
specification), whose implementation is not among the sources.  Every method reads and may
change the outside state `σ`.  `Create` and `Update` receive a `*User`; what they write
through the pointer (id and timestamps on creation, the refreshed `updatedAt` on update) is
returned next to the nil error. -/
structure UserRepository (σ : Type) where
  GetByID : String → σ → Except GoError User × σ
  GetByEmail : String → σ → Except GoError User × σ
  GetByUsername : String → σ → Except GoError User × σ
  Create : User → σ → Except GoError Assigned × σ
  Update : String → User → σ → Except GoError Time × σ
  Delete : String → σ → Except GoError Unit × σ
  List : Int → Int → σ → Except GoError (List User × Int) × σ

end domain

open domain

/-! ## Worlds and traces -/

/-- One observable call made by the service or the handler. -/
inductive Event
  | GetByID (id : String)
  | GetByEmail (email : String)
  | GetByUsername (username : String)
  | GenerateFromPassword (password : String) (cost : Int)
  | Create (user : User)
  | Update (id : String) (user : User)
  | Delete (id : String)
  | List (offset limit : Int)
  | LogError (text : String)
  deriving DecidableEq, Repr

/-- The outside state together with the calls performed so far, oldest first. -/
structure World (σ : Type) where
  ext : σ
  trace : List Event

/-- Perform the outside call `op`, recording it as `ev`. -/
def call {σ α : Type} (ev : Event) (op : σ → α × σ) (w : World σ) : α × World σ :=
  ((op w.ext).1, { ext := (op w.ext).2, trace := w.trace ++ [ev] })

/-- The call `logger.Error(args...)`; logrus prints the operands with `fmt.Sprint`, which
for a leading string operand is the concatenation `text`. -/
def logError {σ : Type} (text : String) (w : World σ) : World σ :=
  { w with trace := w.trace ++ [Event.LogError text] }

/-- Modelled from the spec: the interface `domain.UserService` the handler depends on. -/
structure domain.UserService (σ : Type) where
  CreateUser : CreateUserRequest → World σ → Except GoError UserResponse × World σ
  GetUser : String → World σ → Except GoError UserResponse × World σ
  UpdateUser : String → UpdateUserRequest → World σ → Except GoError UserResponse × World σ
  DeleteUser : String → World σ → Except GoError Unit × World σ
  ListUsers : Int → Int → World σ → Except GoError (List UserResponse × Int) × World σ

/-! ## Package `service`  (`internal/service/user_service.go`) -/

namespace service

/-- The constant `bcrypt.DefaultCost`. -/
def DefaultCost : Int := 10

/-- The struct `userService`.  Besides the repository it records the hasher
`bcrypt.GenerateFromPassword`, an external salted function, as a collaborator; the logger
is represented by `logError`. -/
structure userService (σ : Type) where
  userRepo : UserRepository σ
  GenerateFromPassword : String → Int → σ → Except GoError String × σ

/-- The method `toUserResponse`. -/
def toUserResponse (user : User) : UserResponse :=
  { ID := user.ID.Hex
    Email := user.Email
    Username := user.Username
    FirstName := user.FirstName
    LastName := user.LastName
    IsActive := user.IsActive
    CreatedAt := user.CreatedAt
    UpdatedAt := user.UpdatedAt }

/-- The method `CreateUser`.  `user` is a pointer: after `Create` returns, `toUserResponse`
reads the entity with the identifier and timestamps the store wrote through it. -/
def userService.CreateUser {σ : Type} (s : userService σ) (req : CreateUserRequest)
    (w : World σ) : Except GoError UserResponse × World σ :=
  match call (.GetByEmail req.Email) (s.userRepo.GetByEmail req.Email) w with
  | (.ok _, w1) => (.error (.New "user with this email already exists"), w1)
  | (.error _, w1) =>
    match call (.GetByUsername req.Username) (s.userRepo.GetByUsername req.Username) w1 with
    | (.ok _, w2) => (.error (.New "user with this username already exists"), w2)
    | (.error _, w2) =>
      match call (.GenerateFromPassword req.Password DefaultCost)
          (s.GenerateFromPassword req.Password DefaultCost) w2 with
      | (.error err, w3) =>
        (.error (.New "failed to process password"),
          logError ("Failed to hash password: " ++ err.Error) w3)
      | (.ok hashedPassword, w3) =>
        let user : User :=
          { ID := NilObjectID
            Email := req.Email
            Username := req.Username
            Password := hashedPassword
            FirstName := req.FirstName
            LastName := req.LastName
            IsActive := true
            CreatedAt := 0
            UpdatedAt := 0 }
        match call (.Create user) (s.userRepo.Create user) w3 with
        | (.error err, w4) =>
          (.error (.New "failed to create user"),
            logError ("Failed to create user: " ++ err.Error) w4)
        | (.ok a, w4) => (.ok (toUserResponse (a.applyTo user)), w4)

/-- The method `GetUser`. -/
def userService.GetUser {σ : Type} (s : userService σ) (id : String) (w : World σ) :
    Except GoError UserResponse × World σ :=
  match call (.GetByID id) (s.userRepo.GetByID id) w with
  | (.error err, w1) =>
    if err.IsErrNoDocuments then (.error (.New "user not found"), w1)
    else (.error (.New "failed to get user"), logError ("Failed to get user: " ++ err.Error) w1)
  | (.ok user, w1) => (.ok (toUserResponse user), w1)

/-- The method `UpdateUser`.  `user` is a pointer: the three conditional assignments change
the fetched entity in place, and after `Update` returns `toUserResponse` reads the entity
with what the store wrote through the pointer. -/
def userService.UpdateUser {σ : Type} (s : userService σ) (id : String)
    (req : UpdateUserRequest) (w : World σ) : Except GoError UserResponse × World σ :=
  match call (.GetByID id) (s.userRepo.GetByID id) w with
  | (.error err, w1) =>
    if err.IsErrNoDocuments then (.error (.New "user not found"), w1)
    else (.error (.New "failed to get user"), logError ("Failed to get user: " ++ err.Error) w1)
  | (.ok user, w1) =>
    let user := match req.FirstName with
      | some v => { user with FirstName := v }
      | none => user
    let user := match req.LastName with
      | some v => { user with LastName := v }
      | none => user
    let user := match req.IsActive with
      | some v => { user with IsActive := v }
      | none => user
    match call (.Update id user) (s.userRepo.Update id user) w1 with
    | (.error err, w2) =>
      (.error (.New "failed to update user"),
        logError ("Failed to update user: " ++ err.Error) w2)
    | (.ok t, w2) => (.ok (toUserResponse { user with UpdatedAt := t }), w2)

/-- The method `DeleteUser`. -/
def userService.DeleteUser {σ : Type} (s : userService σ) (id : String) (w : World σ) :
    Except GoError Unit × World σ :=
  match call (.GetByID id) (s.userRepo.GetByID id) w with
  | (.error err, w1) =>
    if err.IsErrNoDocuments then (.error (.New "user not found"), w1)
    else (.error (.New "failed to get user"), logError ("Failed to get user: " ++ err.Error) w1)
  | (.ok _, w1) =>
    match call (.Delete id) (s.userRepo.Delete id) w1 with
    | (.error err, w2) =>
      (.error (.New "failed to delete user"),
        logError ("Failed to delete user: " ++ err.Error) w2)
    | (.ok _, w2) => (.ok (), w2)

/-- The method `ListUsers`.  The product `(page - 1) * limit` is a Go `int`. -/
def userService.ListUsers {σ : Type} (s : userService σ) (page limit : Int) (w : World σ) :
    Except GoError (List UserResponse × Int) × World σ :=
  let page := if page < 1 then 1 else page
  let limit := if limit < 1 ∨ limit > 100 then 10 else limit
  let offset := wrapInt ((page - 1) * limit)
  match call (.List offset limit) (s.userRepo.List offset limit) w with
  | (.error err, w1) =>
    (.error (.New "failed to list users"), logError ("Failed to list users: " ++ err.Error) w1)
  | (.ok (users, total), w1) => (.ok (users.map toUserResponse, total), w1)

/-- The constructor `NewUserService`: the struct seen through the interface. -/
def NewUserService {σ : Type} (s : userService σ) : domain.UserService σ :=
  { CreateUser := s.CreateUser
    GetUser := s.GetUser
    UpdateUser := s.UpdateUser
    DeleteUser := s.DeleteUser
    ListUsers := s.ListUsers }

end service

/-! ## `float64` arithmetic

Only finite values need a significand; the exponent range of binary64 is not represented,
because the conversions of 64-bit integers and the quotient of two of them have binary
exponents between -127 and 64, far from overflow and from the subnormal range.  The sign of
a zero is not distinguished: no operation below can observe it. -/

/-- A `float64`: the finite value `(-1)^neg * m * 2^e`, an infinity, or a NaN. -/
inductive Float64
  | finite (neg : Bool) (m : Nat) (e : Int)
  | inf (neg : Bool)
  | nan
  deriving DecidableEq, Repr

/-- Number of binary digits of `n`, with `fuel` at least that number. -/
def bitLength : Nat → Nat → Nat
  | 0, _ => 0
  | fuel + 1, n => if n = 0 then 0 else bitLength fuel (n / 2) + 1

/-- The binary exponent of the positive rational `n / d`: the `k` with
`2^k ≤ n / d < 2^(k+1)`. -/
def ilog2 (n d : Nat) : Int :=
  let k : Int := (bitLength n n : Int) - (bitLength d d : Int)
  if d * 2 ^ k.toNat ≤ n * 2 ^ (-k).toNat then k else k - 1

/-- Rounding of the positive rational `n / d` to a 53-bit significand, to nearest with ties
to even: the result `(m, e)` stands for `m * 2^e`. -/
def roundSig (n d : Nat) : Nat × Int :=
  let e := ilog2 n d - 52
  let N := n * 2 ^ (-e).toNat
  let D := d * 2 ^ e.toNat
  let q := N / D
  let r := N % D
  let m := if 2 * r < D then q else if D < 2 * r then q + 1 else q + q % 2
  (m, e)

/-- The conversion `float64(x)` of a Go `int`. -/
def Float64.ofInt (x : Int) : Float64 :=
  if x = 0 then .finite false 0 0
  else .finite (decide (x < 0)) (roundSig x.natAbs 1).1 (roundSig x.natAbs 1).2

/-- The quotient `x / y` of two `float64`: the significands are divided and rounded, the
exponents subtracted. -/
def Float64.div : Float64 → Float64 → Float64
  | .nan, _ => .nan
  | _, .nan => .nan
  | .inf _, .inf _ => .nan
  | .inf s, .finite t _ _ => .inf (s != t)
  | .finite s _ _, .inf t => .finite (s != t) 0 0
  | .finite s m1 e1, .finite t m2 e2 =>
    if m2 = 0 then (if m1 = 0 then .nan else .inf (s != t))
    else if m1 = 0 then .finite (s != t) 0 0
    else .finite (s != t) (roundSig m1 m2).1 ((roundSig m1 m2).2 + e1 - e2)

/-- The function `math.Ceil`. -/
def Float64.Ceil : Float64 → Float64
  | .nan => .nan
  | .inf s => .inf s
  | .finite s m e =>
    if 0 ≤ e then .finite s m e
    else if s then .finite true (m / 2 ^ (-e).toNat) 0
    else .finite false ((m + 2 ^ (-e).toNat - 1) / 2 ^ (-e).toNat) 0

/-- The conversion `int(f)`: the fraction is discarded; `none` stands for the
implementation-dependent result Go leaves open when `f` is a NaN, an infinity, or outside
the range of `int`. -/
def Float64.toInt : Float64 → Option Int
  | .nan => none
  | .inf _ => none
  | .finite s m e =>
    let a : Int := if 0 ≤ e then (m * 2 ^ e.toNat : Nat) else (m / 2 ^ (-e).toNat : Nat)
    let v : Int := if s then -a else a
    if minInt ≤ v ∧ v ≤ maxInt then some v else none

/-! ## Package `response`  (`pkg/response/response.go`) -/

namespace response

/-- The struct `Response`; `Data` is `nil` or a user. -/
structure Response where
  Success : Bool
  Message : String
  Data : Option UserResponse
  Error : String
  deriving DecidableEq, Repr

/-- The struct `Pagination`; `TotalPages` is `none` where Go leaves the conversion of the
quotient open. -/
structure Pagination where
  Page : Int
  Limit : Int
  Total : Int
  TotalPages : Option Int
  deriving DecidableEq, Repr

/-- The struct `PaginatedResponse`. -/
structure PaginatedResponse where
  Success : Bool
  Message : String
  Data : List UserResponse
  Pagination : Pagination
  deriving DecidableEq, Repr

/-- What `c.JSON(statusCode, body)` sends. -/
inductive Sent
  | json (statusCode : Int) (body : Response)
  | jsonPaginated (statusCode : Int) (body : PaginatedResponse)
  deriving DecidableEq, Repr

/-- The status code of what was sent. -/
def Sent.status : Sent → Int
  | .json c _ => c
  | .jsonPaginated c _ => c

/-- The function `Success`. -/
def Success (statusCode : Int) (message : String) (data : Option UserResponse) : Sent :=
  .json statusCode { Success := true, Message := message, Data := data, Error := "" }

/-- The function `Error`. -/
def Error (statusCode : Int) (message : String) (error : String) : Sent :=
  .json statusCode { Success := false, Message := message, Data := none, Error := error }

/-- The local `totalPages` of `Paginated`:
`int(math.Ceil(float64(total) / float64(limit)))`. -/
def totalPages (total limit : Int) : Option Int :=
  ((Float64.ofInt total).div (Float64.ofInt limit)).Ceil.toInt

/-- The function `Paginated`. -/
def Paginated (statusCode : Int) (message : String) (data : List UserResponse)
    (page limit total : Int) : Sent :=
  .jsonPaginated statusCode
    { Success := true
      Message := message
      Data := data
      Pagination :=
        { Page := page
          Limit := limit
          Total := total
          TotalPages := totalPages total limit } }

end response

/-! ## Package `handler`  (`internal/handler/user_handler.go`) -/

namespace http

/-- The constant `http.StatusOK`. -/
def StatusOK : Int := 200

/-- The constant `http.StatusCreated`. -/
def StatusCreated : Int := 201

/-- The constant `http.StatusBadRequest`. -/
def StatusBadRequest : Int := 400

/-- The constant `http.StatusNotFound`. -/
def StatusNotFound : Int := 404

/-- The constant `http.StatusInternalServerError`. -/
def StatusInternalServerError : Int := 500

end http

namespace strconv

/-- The value of a string of decimal digits. -/
def digitsValue (ds : List Char) : Nat :=
  ds.foldl (fun acc c => 10 * acc + (c.toNat - 48)) 0

/-- The value `strconv.Atoi(s)` returns, its error dropped: an optional sign followed by at
least one decimal digit; `0` on a syntax error, the nearest bound of `int` on a range
error. -/
def Atoi (s : String) : Int :=
  let signed : Bool × List Char :=
    match s.toList with
    | '+' :: ds => (false, ds)
    | '-' :: ds => (true, ds)
    | ds => (false, ds)
  if signed.2.isEmpty || !signed.2.all Char.isDigit then 0
  else
    let v : Int := if signed.1 then -(digitsValue signed.2 : Int) else digitsValue signed.2
    if v < minInt then minInt else if maxInt < v then maxInt else v

end strconv

namespace handler

/-- The struct `UserHandler`; the logger is represented by `logError`. -/
structure UserHandler (σ : Type) where
  userService : domain.UserService σ

/-- The handler `CreateUser`.  `body` is the outcome of `c.ShouldBindJSON(&req)`. -/
def UserHandler.CreateUser {σ : Type} (h : UserHandler σ)
    (body : Except GoError CreateUserRequest) (w : World σ) : response.Sent × World σ :=
  match body with
  | .error err =>
    (response.Error http.StatusBadRequest "Invalid request body" err.Error,
      logError ("Invalid request body: " ++ err.Error) w)
  | .ok req =>
    match h.userService.CreateUser req w with
    | (.error err, w1) =>
      (response.Error http.StatusBadRequest "Failed to create user" err.Error,
        logError ("Failed to create user: " ++ err.Error) w1)
    | (.ok user, w1) =>
      (response.Success http.StatusCreated "User created successfully" (some user), w1)

/-- The handler `GetUser`.  `id` is `c.Param("id")`. -/
def UserHandler.GetUser {σ : Type} (h : UserHandler σ) (id : String) (w : World σ) :
    response.Sent × World σ :=
  if id = "" then
    (response.Error http.StatusBadRequest "Invalid user ID" "User ID is required", w)
  else
    match h.userService.GetUser id w with
    | (.error err, w1) =>
      if err.Error = "user not found" then
        (response.Error http.StatusNotFound "User not found" err.Error, w1)
      else
        (response.Error http.StatusInternalServerError "Failed to get user" err.Error,
          logError ("Failed to get user: " ++ err.Error) w1)
    | (.ok user, w1) =>
      (response.Success http.StatusOK "User retrieved successfully" (some user), w1)

/-- The handler `UpdateUser`. -/
def UserHandler.UpdateUser {σ : Type} (h : UserHandler σ) (id : String)
    (body : Except GoError UpdateUserRequest) (w : World σ) : response.Sent × World σ :=
  if id = "" then
    (response.Error http.StatusBadRequest "Invalid user ID" "User ID is required", w)
  else
    match body with
    | .error err =>
      (response.Error http.StatusBadRequest "Invalid request body" err.Error,
        logError ("Invalid request body: " ++ err.Error) w)
    | .ok req =>
      match h.userService.UpdateUser id req w with
      | (.error err, w1) =>
        if err.Error = "user not found" then
          (response.Error http.StatusNotFound "User not found" err.Error, w1)
        else
          (response.Error http.StatusInternalServerError "Failed to update user" err.Error,
            logError ("Failed to update user: " ++ err.Error) w1)
      | (.ok user, w1) =>
        (response.Success http.StatusOK "User updated successfully" (some user), w1)

/-- The handler `DeleteUser`. -/
def UserHandler.DeleteUser {σ : Type} (h : UserHandler σ) (id : String) (w : World σ) :
    response.Sent × World σ :=
  if id = "" then
    (response.Error http.StatusBadRequest "Invalid user ID" "User ID is required", w)
  else
    match h.userService.DeleteUser id w with
    | (.error err, w1) =>
      if err.Error = "user not found" then
        (response.Error http.StatusNotFound "User not found" err.Error, w1)
      else
        (response.Error http.StatusInternalServerError "Failed to delete user" err.Error,
          logError ("Failed to delete user: " ++ err.Error) w1)
    | (.ok _, w1) => (response.Success http.StatusOK "User deleted successfully" none, w1)

/-- The handler `ListUsers`.  `pageQuery` and `limitQuery` are the query values `page` and
`limit`, `none` when the key is missing (`c.DefaultQuery` then supplies the default). -/
def UserHandler.ListUsers {σ : Type} (h : UserHandler σ) (pageQuery limitQuery : Option String)
    (w : World σ) : response.Sent × World σ :=
  let page := strconv.Atoi (pageQuery.getD "1")
  let limit := strconv.Atoi (limitQuery.getD "10")
  match h.userService.ListUsers page limit w with
  | (.error err, w1) =>
    (response.Error http.StatusInternalServerError "Failed to list users" err.Error,
      logError ("Failed to list users: " ++ err.Error) w1)
  | (.ok (users, total), w1) =>
    (response.Paginated http.StatusOK "Users retrieved successfully" users page limit total, w1)

end handler

/-! ## An in-memory store

A small implementation of the repository contract, with switches that make its lookups or
its writes fail; the theorems below are instantiated on it. -/

namespace memstore

/-- Contents and condition of the in-memory store. -/
structure MemStore where
  users : List User
  clock : Time
  lookupsFail : Bool
  writesFail : Bool
  deriving DecidableEq, Repr

/-- The error of an unreachable store. -/
def connErr : GoError := .New "connection refused"

/-- First stored user satisfying `p`, the not-found sentinel when there is none. -/
def MemStore.find (p : User → Bool) (st : MemStore) : Except GoError User × MemStore :=
  if st.lookupsFail then (.error connErr, st)
  else
    match st.users.find? p with
    | some u => (.ok u, st)
    | none => (.error .ErrNoDocuments, st)

/-- Identifier number `n`. -/
def mkID (n : Nat) : ObjectID := ⟨List.replicate 11 0 ++ [Fin.ofNat n]⟩

/-- The repository over `MemStore`. -/
def memRepo : UserRepository MemStore where
  GetByID id st := st.find fun u => u.ID.Hex == id
  GetByEmail email st := st.find fun u => u.Email == email
  GetByUsername username st := st.find fun u => u.Username == username
  Create u st :=
    if st.writesFail then (.error connErr, st)
    else
      let a : Assigned :=
        { ID := mkID (st.users.length + 1), CreatedAt := st.clock, UpdatedAt := st.clock }
      (.ok a, { st with users := st.users ++ [a.applyTo u], clock := st.clock + 1 })
  Update id u st :=
    if st.writesFail then (.error connErr, st)
    else
      (.ok st.clock,
        { st with
          users := st.users.map fun v =>
            if v.ID.Hex == id then { u with UpdatedAt := st.clock } else v
          clock := st.clock + 1 })
  Delete id st :=
    if st.writesFail then (.error connErr, st)
    else (.ok (), { st with users := st.users.filter fun v => v.ID.Hex != id })
  List offset limit st :=
    if st.lookupsFail then (.error connErr, st)
    else (.ok ((st.users.drop offset.toNat).take limit.toNat, st.users.length), st)

/-- A stand-in for the salted hasher. -/
def memHash (password : String) (_cost : Int) (st : MemStore) :
    Except GoError String × MemStore :=
  (.ok ("$2a$10$" ++ String.mk password.toList.reverse), st)

/-- The service over the in-memory store. -/
def svc : service.userService MemStore :=
  { userRepo := memRepo, GenerateFromPassword := memHash }

/-- The handler over the in-memory store. -/
def hdl : handler.UserHandler MemStore := { userService := service.NewUserService svc }

/-- The user of the scenario of the specification. -/
def alice : User :=
  { ID := mkID 1
    Email := "a@x.com"
    Username := "alice"
    Password := "$2a$10$654321wp"
    FirstName := "Alice"
    LastName := "A"
    IsActive := true
    CreatedAt := 5
    UpdatedAt := 5 }

/-- The request that creates `alice`. -/
def aliceReq : CreateUserRequest :=
  { Email := "a@x.com", Username := "alice", Password := "pw123456", FirstName := "Alice",
    LastName := "A" }

/-- An empty, healthy store at the start of a request. -/
def emptyWorld : World MemStore :=
  { ext := { users := [], clock := 5, lookupsFail := false, writesFail := false }, trace := [] }

/-- A healthy store holding `alice`. -/
def aliceWorld : World MemStore :=
  { ext := { users := [alice], clock := 6, lookupsFail := false, writesFail := false },
    trace := [] }

/-- A store holding `alice` whose writes fail. -/
def readOnlyWorld : World MemStore :=
  { ext := { users := [alice], clock := 6, lookupsFail := false, writesFail := true },
    trace := [] }

/-- An empty store whose lookups fail while its writes succeed. -/
def blindWorld : World MemStore :=
  { ext := { users := [], clock := 5, lookupsFail := true, writesFail := false }, trace := [] }

/-- The entity `CreateUser` builds for `aliceReq`. -/
def aliceEntity : User :=
  { ID := NilObjectID
    Email := "a@x.com"
    Username := "alice"
    Password := "$2a$10$654321wp"
    FirstName := "Alice"
    LastName := "A"
    IsActive := true
    CreatedAt := 0
    UpdatedAt := 0 }

end memstore

/-! ## Correctness of the `float64` rounding -/

/-- With enough fuel `bitLength` is the number of binary digits: `n` lies between
`2 ^ b` and `2 ^ (b + 1)` for `b` one less than it. -/
theorem bitLength_spec (fuel : Nat) : ∀ n : Nat, n ≠ 0 → n ≤ fuel →
    ∃ b : Nat, bitLength fuel n = b + 1 ∧ 2 ^ b ≤ n ∧ n < 2 ^ (b + 1) := by
  induction fuel with
  | zero => intro n h0 hle; omega
  | succ fuel ih =>
    intro n h0 hle
    by_cases h1 : n / 2 = 0
    · refine ⟨0, ?_, ?_, ?_⟩
      · cases fuel <;> simp [bitLength, h0, h1]
      · simp; omega
      · simp; omega
    · obtain ⟨b, hb, hlo, hhi⟩ := ih (n / 2) h1 (by omega)
      refine ⟨b + 1, by simp [bitLength, h0, hb], ?_, ?_⟩
      · rw [pow_succ]; omega
      · rw [pow_succ]; omega

/-- Splitting an integer power of two into natural powers. -/
theorem two_zpow_split (k : Int) : (2 : ℚ) ^ k * 2 ^ (-k).toNat = 2 ^ k.toNat := by
  rcases le_total 0 k with h | h
  · have h1 : (-k).toNat = 0 := by omega
    have h2 : ((k.toNat : Int)) = k := Int.toNat_of_nonneg h
    rw [h1, pow_zero, mul_one]
    conv_lhs => rw [← h2]
    exact zpow_natCast 2 k.toNat
  · have h1 : k.toNat = 0 := by omega
    have h2 : (((-k).toNat : Int)) = -k := Int.toNat_of_nonneg (by omega)
    rw [h1, pow_zero, ← zpow_natCast, h2, ← zpow_add₀ (by norm_num : (2 : ℚ) ≠ 0)]
    simp

/-- Powers of two are positive. -/
theorem two_zpow_pos (k : Int) : (0 : ℚ) < 2 ^ k := zpow_pos (by norm_num) k

/-- The scaled quotient formed by `roundSig` and `ilog2`. -/
theorem scaled_ratio (n d : Nat) (hd : 0 < d) (e : Int) :
    ((n * 2 ^ (-e).toNat : Nat) : ℚ) / ((d * 2 ^ e.toNat : Nat) : ℚ) =
      (n : ℚ) / d / 2 ^ e := by
  have hs := two_zpow_split e
  have hp := two_zpow_pos e
  have hd' : (0 : ℚ) < d := by exact_mod_cast hd
  have h1 : (0 : ℚ) < 2 ^ (-e).toNat := by positivity
  push_cast
  rw [← hs]
  field_simp
  ring

/-- The exponent `ilog2 n d` brackets the quotient `n / d` between consecutive powers of
two. -/
theorem ilog2_spec (n d : Nat) (hn : 0 < n) (hd : 0 < d) :
    (2 : ℚ) ^ (ilog2 n d) ≤ (n : ℚ) / d ∧ (n : ℚ) / d < 2 ^ (ilog2 n d + 1) := by
  obtain ⟨bn, hbn, hnlo, hnhi⟩ := bitLength_spec n n (by omega) le_rfl
  obtain ⟨bd, hbd, hdlo, hdhi⟩ := bitLength_spec d d (by omega) le_rfl
  have hd' : (0 : ℚ) < d := by exact_mod_cast hd
  have hn' : (0 : ℚ) < n := by exact_mod_cast hn
  have hnlo' : (2 : ℚ) ^ (bn : Int) ≤ n := by rw [zpow_natCast]; exact_mod_cast hnlo
  have hnhi' : (n : ℚ) < 2 ^ ((bn : Int) + 1) := by
    have : ((bn : Int) + 1) = ((bn + 1 : Nat) : Int) := by push_cast; ring
    rw [this, zpow_natCast]; exact_mod_cast hnhi
  have hdlo' : (2 : ℚ) ^ (bd : Int) ≤ d := by rw [zpow_natCast]; exact_mod_cast hdlo
  have hdhi' : (d : ℚ) < 2 ^ ((bd : Int) + 1) := by
    have : ((bd : Int) + 1) = ((bd + 1 : Nat) : Int) := by push_cast; ring
    rw [this, zpow_natCast]; exact_mod_cast hdhi
  have two_ne : (2 : ℚ) ≠ 0 := by norm_num
  have hk : ((bitLength n n : Int) - (bitLength d d : Int)) = (bn : Int) - bd := by
    rw [hbn, hbd]; push_cast; ring
  -- the test of `ilog2` compares the quotient with `2 ^ k`
  have htest : ∀ k : Int, (d * 2 ^ k.toNat ≤ n * 2 ^ (-k).toNat) ↔ (2 : ℚ) ^ k ≤ (n : ℚ) / d := by
    intro k
    have hs := two_zpow_split k
    have h1 : (0 : ℚ) < 2 ^ (-k).toNat := by positivity
    rw [le_div_iff₀ hd']
    constructor
    · intro h
      have h' : (d : ℚ) * 2 ^ k.toNat ≤ n * 2 ^ (-k).toNat := by exact_mod_cast h
      rw [← hs] at h'
      have : (2 : ℚ) ^ k * d * 2 ^ (-k).toNat ≤ n * 2 ^ (-k).toNat := by linarith
      exact le_of_mul_le_mul_right this h1
    · intro h
      have : (d : ℚ) * 2 ^ k.toNat ≤ n * 2 ^ (-k).toNat := by
        rw [← hs]
        have := mul_le_mul_of_nonneg_right h h1.le
        linarith
      exact_mod_cast this
  have hup : (n : ℚ) / d < 2 ^ ((bn : Int) - bd + 1) := by
    rw [div_lt_iff₀ hd']
    have e1 : (2 : ℚ) ^ ((bn : Int) - bd + 1) * 2 ^ (bd : Int) = 2 ^ ((bn : Int) + 1) := by
      rw [← zpow_add₀ two_ne]; congr 1; ring
    have : (2 : ℚ) ^ ((bn : Int) - bd + 1) * 2 ^ (bd : Int) ≤ 2 ^ ((bn : Int) - bd + 1) * d :=
      mul_le_mul_of_nonneg_left hdlo' (two_zpow_pos _).le
    linarith
  have hlow : (2 : ℚ) ^ ((bn : Int) - bd - 1) ≤ (n : ℚ) / d := by
    rw [le_div_iff₀ hd']
    have e1 : (2 : ℚ) ^ ((bn : Int) - bd - 1) * 2 ^ ((bd : Int) + 1) = 2 ^ (bn : Int) := by
      rw [← zpow_add₀ two_ne]; congr 1; ring
    have : (2 : ℚ) ^ ((bn : Int) - bd - 1) * d ≤ 2 ^ ((bn : Int) - bd - 1) * 2 ^ ((bd : Int) + 1) :=
      mul_le_mul_of_nonneg_left hdhi'.le (two_zpow_pos _).le
    linarith
  unfold ilog2
  simp only [hk]
  by_cases ht : d * 2 ^ ((bn : Int) - bd).toNat ≤ n * 2 ^ (-((bn : Int) - bd)).toNat
  · rw [if_pos ht]
    exact ⟨(htest _).1 ht, hup⟩
  · rw [if_neg ht]
    refine ⟨hlow, ?_⟩
    have := (htest ((bn : Int) - bd)).not.1 ht
    have e : ((bn : Int) - bd - 1 + 1) = (bn : Int) - bd := by ring
    rw [e]
    exact not_le.1 this

/-- Nearest-integer rounding of a quotient of naturals stays within one half. -/
theorem nearest_quotient (N D : Nat) (hD : 0 < D) :
    N / D ≤ (if 2 * (N % D) < D then N / D
        else if D < 2 * (N % D) then N / D + 1 else N / D + N / D % 2) ∧
    |(((if 2 * (N % D) < D then N / D
        else if D < 2 * (N % D) then N / D + 1 else N / D + N / D % 2 : Nat) : ℚ)) -
      (N : ℚ) / D| ≤ 1 / 2 := by
  have hdm := Nat.div_add_mod N D
  have hr := Nat.mod_lt N hD
  have hD' : (0 : ℚ) < D := by exact_mod_cast hD
  have hN : (N : ℚ) = D * (N / D : Nat) + (N % D : Nat) := by exact_mod_cast hdm.symm
  have hr' : ((N % D : Nat) : ℚ) < D := by exact_mod_cast hr
  have hr0 : (0 : ℚ) ≤ ((N % D : Nat) : ℚ) := by positivity
  have key : ∀ m : ℚ, |m * D - N| ≤ D / 2 → |m - (N : ℚ) / D| ≤ 1 / 2 := by
    intro m h
    have : m - (N : ℚ) / D = (m * D - N) / D := by field_simp
    rw [this, abs_div, abs_of_pos hD', div_le_iff₀ hD']
    linarith
  constructor
  · split_ifs <;> omega
  · apply key
    rw [abs_le]
    split_ifs with h1 h2
    · have h1' : 2 * ((N % D : Nat) : ℚ) < D := by exact_mod_cast h1
      constructor <;> nlinarith
    · have h2' : (D : ℚ) < 2 * ((N % D : Nat) : ℚ) := by exact_mod_cast h2
      push_cast
      constructor <;> nlinarith
    · have h3 : 2 * (N % D) = D := by omega
      have h3' : 2 * ((N % D : Nat) : ℚ) = D := by exact_mod_cast h3
      rcases Nat.mod_two_eq_zero_or_one (N / D) with h | h
      · rw [h]; push_cast
        constructor <;> nlinarith
      · rw [h]; push_cast
        constructor <;> nlinarith

/-- The rounding `roundSig n d = (m, e)`: the quotient lies in the binade
`[2 ^ (e + 52), 2 ^ (e + 53))`, the result `m * 2 ^ e` is within half a unit in the last
place of it, and the significand is normalised. -/
theorem roundSig_spec (n d : Nat) (hn : 0 < n) (hd : 0 < d) :
    (2 : ℚ) ^ ((roundSig n d).2 + 52) ≤ (n : ℚ) / d ∧
    (n : ℚ) / d < 2 ^ ((roundSig n d).2 + 53) ∧
    |((roundSig n d).1 : ℚ) * 2 ^ (roundSig n d).2 - (n : ℚ) / d| ≤ 2 ^ (roundSig n d).2 / 2 ∧
    2 ^ 52 ≤ (roundSig n d).1 := by
  obtain ⟨hlo, hhi⟩ := ilog2_spec n d hn hd
  have he : (roundSig n d).2 = ilog2 n d - 52 := rfl
  have e1 : (roundSig n d).2 + 52 = ilog2 n d := by rw [he]; ring
  have e2 : (roundSig n d).2 + 53 = ilog2 n d + 1 := by rw [he]; ring
  have hD : 0 < d * 2 ^ ((roundSig n d).2).toNat := by positivity
  have hsc := scaled_ratio n d hd (roundSig n d).2
  obtain ⟨hq, hnear⟩ := nearest_quotient (n * 2 ^ (-(roundSig n d).2).toNat)
    (d * 2 ^ ((roundSig n d).2).toNat) hD
  have hm : (roundSig n d).1 =
      (if 2 * (n * 2 ^ (-(roundSig n d).2).toNat % (d * 2 ^ ((roundSig n d).2).toNat)) <
          d * 2 ^ ((roundSig n d).2).toNat then
        n * 2 ^ (-(roundSig n d).2).toNat / (d * 2 ^ ((roundSig n d).2).toNat)
      else if d * 2 ^ ((roundSig n d).2).toNat <
          2 * (n * 2 ^ (-(roundSig n d).2).toNat % (d * 2 ^ ((roundSig n d).2).toNat)) then
        n * 2 ^ (-(roundSig n d).2).toNat / (d * 2 ^ ((roundSig n d).2).toNat) + 1
      else n * 2 ^ (-(roundSig n d).2).toNat / (d * 2 ^ ((roundSig n d).2).toNat) +
        n * 2 ^ (-(roundSig n d).2).toNat / (d * 2 ^ ((roundSig n d).2).toNat) % 2) := rfl
  rw [← hm, hsc] at hnear
  rw [← hm] at hq
  have hp := two_zpow_pos (roundSig n d).2
  have two_ne : (2 : ℚ) ≠ 0 := by norm_num
  refine ⟨e1 ▸ hlo, e2 ▸ hhi, ?_, ?_⟩
  · have : ((roundSig n d).1 : ℚ) * 2 ^ (roundSig n d).2 - (n : ℚ) / d =
        (((roundSig n d).1 : ℚ) - (n : ℚ) / d / 2 ^ (roundSig n d).2) * 2 ^ (roundSig n d).2 := by
      have hd' : (d : ℚ) ≠ 0 := by exact_mod_cast hd.ne'
      field_simp
      ring
    rw [this, abs_mul, abs_of_pos hp]
    have := mul_le_mul_of_nonneg_right hnear hp.le
    linarith
  · refine le_trans ?_ hq
    rw [Nat.le_div_iff_mul_le hD]
    have h52 : (2 : ℚ) ^ (52 : Nat) ≤ (n : ℚ) / d / 2 ^ (roundSig n d).2 := by
      rw [le_div_iff₀ hp]
      have : (2 : ℚ) ^ (52 : Nat) * 2 ^ (roundSig n d).2 = 2 ^ ((roundSig n d).2 + 52) := by
        rw [← zpow_natCast, ← zpow_add₀ two_ne]; congr 1; push_cast; ring
      rw [this, e1]; exact hlo
    rw [← hsc, le_div_iff₀ (by exact_mod_cast hD)] at h52
    exact_mod_cast h52

/-- A float with a non-positive exponent lies on the grid of multiples of `2 ^ E` that
contains every integer. -/
theorem grid_offset (m : Nat) (E : Int) (hE : E ≤ 0) (c : Int) :
    ∃ z : Int, (m : ℚ) * 2 ^ E - c = z * 2 ^ E := by
  have hs := two_zpow_split E
  have h0 : E.toNat = 0 := by omega
  rw [h0, pow_zero] at hs
  refine ⟨(m : Int) - c * 2 ^ (-E).toNat, ?_⟩
  push_cast
  have : (c : ℚ) = c * (2 ^ E * 2 ^ (-E).toNat) := by rw [hs, mul_one]
  nlinarith [this]

/-- A float within half a unit in the last place of a real below the integer `c` is at most
`c`. -/
theorem round_le_int (m : Nat) (E : Int) (hE : E ≤ 0) (c : Int) (X : ℚ) (hX : X ≤ c)
    (hnear : |(m : ℚ) * 2 ^ E - X| ≤ 2 ^ E / 2) : (m : ℚ) * 2 ^ E ≤ c := by
  obtain ⟨z, hz⟩ := grid_offset m E hE c
  have hp := two_zpow_pos E
  have h1 := (abs_le.1 hnear).2
  by_contra hcon
  push_neg at hcon
  have hzpos : (0 : ℚ) < z * 2 ^ E := by linarith
  have hz1 : (1 : Int) ≤ z := by
    by_contra h
    have : (z : ℚ) ≤ 0 := by exact_mod_cast (by omega : z ≤ 0)
    nlinarith
  have : (1 : ℚ) ≤ z := by exact_mod_cast hz1
  nlinarith

/-- The symmetric bound. -/
theorem int_le_round (m : Nat) (E : Int) (hE : E ≤ 0) (c : Int) (X : ℚ) (hX : (c : ℚ) ≤ X)
    (hnear : |(m : ℚ) * 2 ^ E - X| ≤ 2 ^ E / 2) : (c : ℚ) ≤ (m : ℚ) * 2 ^ E := by
  obtain ⟨z, hz⟩ := grid_offset m E hE c
  have hp := two_zpow_pos E
  have h1 := (abs_le.1 hnear).1
  by_contra hcon
  push_neg at hcon
  have hzneg : (z : ℚ) * 2 ^ E < 0 := by linarith
  have hz1 : z ≤ -1 := by
    by_contra h
    have : (0 : ℚ) ≤ z := by exact_mod_cast (by omega : 0 ≤ z)
    nlinarith
  have : (z : ℚ) ≤ -1 := by exact_mod_cast hz1
  nlinarith

/-- An exponent is non-positive when the value is below `2 ^ 53`. -/
theorem exp_nonpos (E : Int) (X : ℚ) (hlo : (2 : ℚ) ^ (E + 52) ≤ X) (hX : X < 2 ^ 53) :
    E ≤ 0 := by
  have h : (2 : ℚ) ^ (E + 52) < 2 ^ ((53 : Nat) : Int) := by
    rw [zpow_natCast]; linarith
  have := (zpow_lt_zpow_iff_right₀ (by norm_num : (1 : ℚ) < 2)).1 h
  push_cast at this
  omega

/-- The conversion of an integer below `2 ^ 53` is exact. -/
theorem roundSig_int_exact (a : Nat) (ha : 0 < a) (ha53 : a < 2 ^ 53) :
    ((roundSig a 1).1 : ℚ) * 2 ^ (roundSig a 1).2 = a := by
  obtain ⟨hlo, -, hnear, -⟩ := roundSig_spec a 1 ha (by norm_num)
  simp only [Nat.cast_one, div_one] at hlo hnear
  have ha' : (a : ℚ) < 2 ^ 53 := by exact_mod_cast ha53
  have hE := exp_nonpos _ _ hlo ha'
  have h1 := round_le_int _ _ hE (a : Int) (a : ℚ) (by simp) hnear
  have h2 := int_le_round _ _ hE (a : Int) (a : ℚ) (by simp) hnear
  push_cast at h1 h2
  linarith

/-- The conversion of an integer from `2 ^ 53` on is at least `2 ^ 53`. -/
theorem roundSig_int_large (b : Nat) (hb : 2 ^ 53 ≤ b) :
    (2 : ℚ) ^ 53 ≤ ((roundSig b 1).1 : ℚ) * 2 ^ (roundSig b 1).2 := by
  have hb0 : 0 < b := lt_of_lt_of_le (by norm_num) hb
  obtain ⟨-, hhi, -, hm⟩ := roundSig_spec b 1 hb0 (by norm_num)
  simp only [Nat.cast_one, div_one] at hhi
  have hb' : (2 : ℚ) ^ ((53 : Nat) : Int) ≤ b := by rw [zpow_natCast]; exact_mod_cast hb
  have h := lt_of_le_of_lt hb' hhi
  have := (zpow_lt_zpow_iff_right₀ (by norm_num : (1 : ℚ) < 2)).1 h
  push_cast at this
  have h1 : (1 : Int) ≤ (roundSig b 1).2 := by omega
  have h2 : (2 : ℚ) ^ (1 : Int) ≤ 2 ^ (roundSig b 1).2 :=
    zpow_le_zpow_right₀ (by norm_num) h1
  have hm' : (2 : ℚ) ^ 52 ≤ ((roundSig b 1).1 : ℚ) := by exact_mod_cast hm
  have h3 : (2 : ℚ) ^ 52 * 2 ^ (1 : Int) ≤ ((roundSig b 1).1 : ℚ) * 2 ^ (roundSig b 1).2 :=
    mul_le_mul hm' h2 (by positivity) (by positivity)
  norm_num at h3 ⊢
  linarith

/-- What `int(math.Ceil(f))` is for a positive finite `f` whose ceiling is the `int` `c`. -/
theorem ceil_toInt_eq (m : Nat) (E : Int) (c : Int) (h1 : (c : ℚ) - 1 < (m : ℚ) * 2 ^ E)
    (h2 : (m : ℚ) * 2 ^ E ≤ c) (hc : minInt ≤ c ∧ c ≤ maxInt) :
    (Float64.finite false m E).Ceil.toInt = some c := by
  have hs := two_zpow_split E
  rcases le_or_lt 0 E with hE | hE
  · have h0 : (-E).toNat = 0 := by omega
    rw [h0, pow_zero, mul_one] at hs
    rw [hs] at h1 h2
    have e1 : ((m * 2 ^ E.toNat : Nat) : Int) = c := by
      have a1 : (c : ℚ) - 1 < ((m * 2 ^ E.toNat : Nat) : ℚ) := by push_cast; exact h1
      have a2 : ((m * 2 ^ E.toNat : Nat) : ℚ) ≤ c := by push_cast; exact h2
      have b1 : c - 1 < ((m * 2 ^ E.toNat : Nat) : Int) := by exact_mod_cast a1
      have b2 : ((m * 2 ^ E.toNat : Nat) : Int) ≤ c := by exact_mod_cast a2
      omega
    simp only [Float64.Ceil, if_pos hE, Float64.toInt]
    rw [e1]
    simp [hc.1, hc.2]
  · have h0 : E.toNat = 0 := by omega
    rw [h0, pow_zero] at hs
    have hP : 0 < 2 ^ (-E).toNat := by positivity
    have hPq : (0 : ℚ) < 2 ^ (-E).toNat := by positivity
    have hdm := Nat.div_add_mod (m + 2 ^ (-E).toNat - 1) (2 ^ (-E).toNat)
    have hr := Nat.mod_lt (m + 2 ^ (-E).toNat - 1) hP
    have hv : (m : ℚ) * 2 ^ E * 2 ^ (-E).toNat = m := by rw [mul_assoc, hs, mul_one]
    -- both `c` and the rounded-up quotient are the ceiling of `m / 2 ^ (-E)`
    have c1 : (c - 1) * (2 ^ (-E).toNat : Int) < m := by
      have : ((c : ℚ) - 1) * 2 ^ (-E).toNat < m := by
        rw [← hv]; exact mul_lt_mul_of_pos_right h1 hPq
      exact_mod_cast this
    have c2 : (m : Int) ≤ c * 2 ^ (-E).toNat := by
      have : (m : ℚ) ≤ c * 2 ^ (-E).toNat := by
        rw [← hv]; exact mul_le_mul_of_nonneg_right h2 hPq.le
      exact_mod_cast this
    have hPz : (0 : Int) < 2 ^ (-E).toNat := by positivity
    have d1 : (m : Int) ≤ ((m + 2 ^ (-E).toNat - 1) / 2 ^ (-E).toNat : Nat) * 2 ^ (-E).toNat := by
      have : m ≤ (m + 2 ^ (-E).toNat - 1) / 2 ^ (-E).toNat * 2 ^ (-E).toNat := by
        rw [Nat.mul_comm]; omega
      exact_mod_cast this
    have d2 : ((((m + 2 ^ (-E).toNat - 1) / 2 ^ (-E).toNat : Nat) : Int) - 1) * 2 ^ (-E).toNat
        < m := by
      have : (m + 2 ^ (-E).toNat - 1) / 2 ^ (-E).toNat * 2 ^ (-E).toNat < m + 2 ^ (-E).toNat := by
        rw [Nat.mul_comm]; omega
      have : ((((m + 2 ^ (-E).toNat - 1) / 2 ^ (-E).toNat : Nat) : Int)) * 2 ^ (-E).toNat
          < m + 2 ^ (-E).toNat := by exact_mod_cast this
      linarith
    have e1 : (((m + 2 ^ (-E).toNat - 1) / 2 ^ (-E).toNat : Nat) : Int) = c := by
      have l1 : (c - 1) * (2 ^ (-E).toNat : Int) <
          ((m + 2 ^ (-E).toNat - 1) / 2 ^ (-E).toNat : Nat) * 2 ^ (-E).toNat := by linarith
      have l2 : ((((m + 2 ^ (-E).toNat - 1) / 2 ^ (-E).toNat : Nat) : Int) - 1) * 2 ^ (-E).toNat
          < c * 2 ^ (-E).toNat := by linarith
      have := lt_of_mul_lt_mul_right l1 hPz.le
      have := lt_of_mul_lt_mul_right l2 hPz.le
      omega
    simp only [Float64.Ceil, if_neg (not_le.2 hE), Float64.toInt]
    simp [e1, hc.1, hc.2]

/-- The quotient of two positive floats: the rounded significand with the shifted exponent
is within half a unit in the last place of the exact quotient. -/
theorem div_spec (m1 m2 : Nat) (e1 e2 : Int) (h1 : 0 < m1) (h2 : 0 < m2) :
    (2 : ℚ) ^ ((roundSig m1 m2).2 + e1 - e2 + 52) ≤
      ((m1 : ℚ) * 2 ^ e1) / ((m2 : ℚ) * 2 ^ e2) ∧
    |((roundSig m1 m2).1 : ℚ) * 2 ^ ((roundSig m1 m2).2 + e1 - e2) -
      ((m1 : ℚ) * 2 ^ e1) / ((m2 : ℚ) * 2 ^ e2)| ≤ 2 ^ ((roundSig m1 m2).2 + e1 - e2) / 2 ∧
    0 < (roundSig m1 m2).1 := by
  obtain ⟨hlo, -, hnear, hm⟩ := roundSig_spec m1 m2 h1 h2
  have two_ne : (2 : ℚ) ≠ 0 := by norm_num
  have hp1 := two_zpow_pos e1
  have hp2 := two_zpow_pos e2
  have hps := two_zpow_pos (e1 - e2)
  have hm2 : (m2 : ℚ) ≠ 0 := by exact_mod_cast h2.ne'
  have hX : ((m1 : ℚ) * 2 ^ e1) / ((m2 : ℚ) * 2 ^ e2) = (m1 : ℚ) / m2 * 2 ^ (e1 - e2) := by
    rw [zpow_sub₀ two_ne]; field_simp
  have hE1 : (2 : ℚ) ^ ((roundSig m1 m2).2 + e1 - e2 + 52) =
      2 ^ ((roundSig m1 m2).2 + 52) * 2 ^ (e1 - e2) := by
    rw [← zpow_add₀ two_ne]; congr 1; ring
  have hE2 : (2 : ℚ) ^ ((roundSig m1 m2).2 + e1 - e2) =
      2 ^ (roundSig m1 m2).2 * 2 ^ (e1 - e2) := by
    rw [← zpow_add₀ two_ne]; congr 1; ring
  refine ⟨?_, ?_, lt_of_lt_of_le (by norm_num) hm⟩
  · rw [hX, hE1]
    exact mul_le_mul_of_nonneg_right hlo hps.le
  · rw [hX, hE2]
    have : ((roundSig m1 m2).1 : ℚ) * (2 ^ (roundSig m1 m2).2 * 2 ^ (e1 - e2)) -
        (m1 : ℚ) / m2 * 2 ^ (e1 - e2) =
        (((roundSig m1 m2).1 : ℚ) * 2 ^ (roundSig m1 m2).2 - (m1 : ℚ) / m2) * 2 ^ (e1 - e2) := by
      ring
    rw [this, abs_mul, abs_of_pos hps]
    have := mul_le_mul_of_nonneg_right hnear hps.le
    linarith

/-- The ceiling survives the rounding of the quotient: with `a < 2 ^ 53` exactly converted and
the divisor `y` either exact or at least `2 ^ 53`, a float within half a unit in the last
place of `a / y` has the ceiling of `a / b`. -/
theorem ceil_of_rounded_quotient (a b : Nat) (ha : 0 < a) (ha53 : a < 2 ^ 53) (hb : 0 < b)
    (y : ℚ) (hy : y = b ∨ ((2 : ℚ) ^ 53 ≤ b ∧ (2 : ℚ) ^ 53 ≤ y)) (m : Nat) (hm : 0 < m) (E : Int)
    (hlo : (2 : ℚ) ^ (E + 52) ≤ (a : ℚ) / y)
    (hnear : |(m : ℚ) * 2 ^ E - (a : ℚ) / y| ≤ 2 ^ E / 2) :
    ((⌈(a : ℚ) / b⌉ : Int) : ℚ) - 1 < (m : ℚ) * 2 ^ E ∧
      (m : ℚ) * 2 ^ E ≤ ((⌈(a : ℚ) / b⌉ : Int) : ℚ) := by
  have ha' : (0 : ℚ) < a := by exact_mod_cast ha
  have hb' : (0 : ℚ) < b := by exact_mod_cast hb
  have hb1 : (1 : ℚ) ≤ b := by exact_mod_cast hb
  have ha53' : (a : ℚ) < 2 ^ 53 := by exact_mod_cast ha53
  have hp := two_zpow_pos E
  have two_ne : (2 : ℚ) ≠ 0 := by norm_num
  have hc1 : ((⌈(a : ℚ) / b⌉ : Int) : ℚ) - 1 < (a : ℚ) / b := by
    have := Int.ceil_lt_add_one ((a : ℚ) / b); linarith
  have hc2 : (a : ℚ) / b ≤ ((⌈(a : ℚ) / b⌉ : Int) : ℚ) := Int.le_ceil _
  rcases hy with hy | ⟨hbig, hybig⟩
  · -- the divisor is exact
    subst hy
    have hXa : (a : ℚ) / b ≤ a := div_le_self ha'.le hb1
    have hE := exp_nonpos E _ hlo (lt_of_le_of_lt hXa ha53')
    refine ⟨?_, round_le_int m E hE _ _ hc2 hnear⟩
    by_contra hcon
    push_neg at hcon
    -- the quotient exceeds the integer below its ceiling by at least `1 / b`
    have hint : ((⌈(a : ℚ) / b⌉ : Int) - 1) * (b : Int) + 1 ≤ a := by
      have : (((⌈(a : ℚ) / b⌉ : Int) : ℚ) - 1) * b < a := by
        rw [← lt_div_iff₀ hb']; exact hc1
      have : (((⌈(a : ℚ) / b⌉ : Int) - 1) * (b : Int) : Int) < (a : Int) := by exact_mod_cast this
      omega
    have hint' : (((⌈(a : ℚ) / b⌉ : Int) : ℚ) - 1) * b + 1 ≤ a := by exact_mod_cast hint
    have hgap : (1 : ℚ) / b ≤ (a : ℚ) / b - (m : ℚ) * 2 ^ E := by
      have : (((⌈(a : ℚ) / b⌉ : Int) : ℚ) - 1) + 1 / b ≤ (a : ℚ) / b := by
        rw [le_div_iff₀ hb']
        have : ((((⌈(a : ℚ) / b⌉ : Int) : ℚ) - 1) + 1 / b) * b =
            (((⌈(a : ℚ) / b⌉ : Int) : ℚ) - 1) * b + 1 := by field_simp
        linarith
      linarith
    have h1 := (abs_le.1 hnear).1
    have hbE : (2 : ℚ) ≤ b * 2 ^ E := by
      have : (1 : ℚ) / b ≤ 2 ^ E / 2 := by linarith
      rw [div_le_iff₀ hb'] at this
      linarith
    have hsplit : (2 : ℚ) ^ (E + 52) = 2 ^ E * 2 ^ 52 := by
      rw [zpow_add₀ two_ne]; norm_num
    have : (2 : ℚ) ^ (E + 52) * b ≤ a := by
      rw [← le_div_iff₀ hb']; exact hlo
    rw [hsplit] at this
    nlinarith
  · -- the divisor is at least `2 ^ 53`, the quotient below one
    have hy0 : (0 : ℚ) < y := lt_of_lt_of_le (by norm_num) hybig
    have hX1 : (a : ℚ) / y < 1 := by rw [div_lt_one hy0]; linarith
    have hab : (a : ℚ) / b < 1 := by rw [div_lt_one hb']; linarith
    have hab0 : (0 : ℚ) < (a : ℚ) / b := div_pos ha' hb'
    have hceil : ⌈(a : ℚ) / b⌉ = 1 := by
      rw [Int.ceil_eq_iff]; push_cast; constructor <;> linarith
    have hE := exp_nonpos E _ hlo (lt_trans hX1 (by norm_num))
    rw [hceil]
    refine ⟨?_, round_le_int m E hE 1 _ (by push_cast; linarith) hnear⟩
    have : (0 : ℚ) < (m : ℚ) * 2 ^ E := mul_pos (by exact_mod_cast hm) hp
    push_cast; linarith

/-- The significand of a converted positive integer is positive. -/
theorem roundSig_pos (n : Nat) (hn : 0 < n) : 0 < (roundSig n 1).1 :=
  lt_of_lt_of_le (by norm_num) (roundSig_spec n 1 hn (by norm_num)).2.2.2

/-- The page count is the exact ceiling when the total is below `2 ^ 53`. -/
theorem totalPages_eq_ceil (total limit : Int) (h0 : 0 ≤ total) (h53 : total < 2 ^ 53)
    (hl : 1 ≤ limit) :
    response.totalPages total limit = some ⌈(total : ℚ) / limit⌉ := by
  have hlne : limit ≠ 0 := by omega
  have hlneg : ¬ limit < 0 := by omega
  have hb : 0 < limit.natAbs := by omega
  have hm2 := roundSig_pos limit.natAbs hb
  have hbcast : ((limit.natAbs : Nat) : ℚ) = (limit : ℚ) := by
    have : ((limit.natAbs : Nat) : Int) = limit := Int.natAbs_of_nonneg (by omega)
    rw [← Int.cast_natCast, this]
  rcases eq_or_lt_of_le h0 with hz | hpos
  · -- no user at all
    subst hz
    have : response.totalPages 0 limit = some 0 := by
      simp [response.totalPages, Float64.ofInt, hlne, Float64.div, hm2.ne', Float64.Ceil,
        Float64.toInt, minInt, maxInt]
    rw [this]; simp
  · have hne : total ≠ 0 := by omega
    have hneg : ¬ total < 0 := by omega
    have ha : 0 < total.natAbs := by omega
    have ha53 : total.natAbs < 2 ^ 53 := by omega
    have hacast : ((total.natAbs : Nat) : ℚ) = (total : ℚ) := by
      have : ((total.natAbs : Nat) : Int) = total := Int.natAbs_of_nonneg h0
      rw [← Int.cast_natCast, this]
    have hm1 := roundSig_pos total.natAbs ha
    have hunfold : response.totalPages total limit =
        (Float64.finite false (roundSig (roundSig total.natAbs 1).1 (roundSig limit.natAbs 1).1).1
          ((roundSig (roundSig total.natAbs 1).1 (roundSig limit.natAbs 1).1).2 +
            (roundSig total.natAbs 1).2 - (roundSig limit.natAbs 1).2)).Ceil.toInt := by
      simp [response.totalPages, Float64.ofInt, hne, hlne, hneg, hlneg, Float64.div, hm1.ne',
        hm2.ne']
    obtain ⟨hlo, hnear, hm⟩ := div_spec _ _ (roundSig total.natAbs 1).2
      (roundSig limit.natAbs 1).2 hm1 hm2
    rw [roundSig_int_exact total.natAbs ha ha53] at hlo hnear
    have hy : ((roundSig limit.natAbs 1).1 : ℚ) * 2 ^ (roundSig limit.natAbs 1).2 =
          (limit.natAbs : Nat) ∨
        ((2 : ℚ) ^ 53 ≤ (limit.natAbs : Nat) ∧
          (2 : ℚ) ^ 53 ≤ ((roundSig limit.natAbs 1).1 : ℚ) * 2 ^ (roundSig limit.natAbs 1).2) := by
      rcases lt_or_le limit.natAbs (2 ^ 53) with h | h
      · exact Or.inl (roundSig_int_exact _ hb h)
      · exact Or.inr ⟨by exact_mod_cast h, roundSig_int_large _ h⟩
    obtain ⟨c1, c2⟩ := ceil_of_rounded_quotient total.natAbs limit.natAbs ha ha53 hb _ hy _ hm _
      hlo hnear
    rw [hacast, hbcast] at c1 c2
    rw [hunfold]
    apply ceil_toInt_eq _ _ _ c1 c2
    have hq0 : (0 : ℚ) ≤ (total : ℚ) / limit :=
      div_nonneg (by exact_mod_cast h0) (by exact_mod_cast (by omega : (0 : Int) ≤ limit))
    have hqle : (total : ℚ) / limit ≤ total :=
      div_le_self (by exact_mod_cast h0) (by exact_mod_cast hl)
    have hc0 : 0 ≤ ⌈(total : ℚ) / limit⌉ := Int.ceil_nonneg hq0
    have hcle : ⌈(total : ℚ) / limit⌉ ≤ total := by
      rw [Int.ceil_le]; exact hqle
    unfold minInt maxInt
    constructor <;> omega

/-- The model on known `float64` values: `float64(1) = 2^52 * 2^-52`, `float64(2^53 + 1)`
is `2^53`, `1.0 / 10.0` is `0x3FB999999999999A`, `1.0 / 3.0` is `0x3FD5555555555555`, and
`float64(2^63 - 1)` is `2^63`. -/
theorem float64_known_values :
    Float64.ofInt 1 = .finite false 4503599627370496 (-52) ∧
    Float64.ofInt 9007199254740993 = .finite false 4503599627370496 1 ∧
    (Float64.ofInt 1).div (Float64.ofInt 10) = .finite false 7205759403792794 (-56) ∧
    (Float64.ofInt 1).div (Float64.ofInt 3) = .finite false 6004799503160661 (-54) ∧
    Float64.ofInt 9223372036854775807 = .finite false 9007199254740992 10 ∧
    (Float64.ofInt 7).div (Float64.ofInt 0) = .inf false ∧
    (Float64.ofInt 0).div (Float64.ofInt 0) = .nan :=
  ⟨by decide, by decide, by decide, by decide, by decide, by decide, by decide⟩

/-! ## The domain service -/

open service handler memstore

/-- `UpdateUser` on an existing user: the entity merged from `u` and the present fields of
the request is handed to the store's `Update`, and the result follows its outcome. -/
theorem updateUser_of_found {σ : Type} (s : userService σ) (id : String)
    (req : UpdateUserRequest) (w : World σ) (u : User) (st1 : σ)
    (hGet : s.userRepo.GetByID id w.ext = (.ok u, st1)) :
    s.UpdateUser id req w =
      match s.userRepo.Update id
        { ID := u.ID, Email := u.Email, Username := u.Username, Password := u.Password,
          FirstName := (match req.FirstName with | some v => v | none => u.FirstName),
          LastName := (match req.LastName with | some v => v | none => u.LastName),
          IsActive := (match req.IsActive with | some v => v | none => u.IsActive),
          CreatedAt := u.CreatedAt, UpdatedAt := u.UpdatedAt } st1 with
      | (.error err, st2) =>
        (.error (.New "failed to update user"),
          { ext := st2
            trace := w.trace ++
              [Event.GetByID id,
                Event.Update id
                  { ID := u.ID, Email := u.Email, Username := u.Username,
                    Password := u.Password,
                    FirstName := (match req.FirstName with | some v => v | none => u.FirstName),
                    LastName := (match req.LastName with | some v => v | none => u.LastName),
                    IsActive := (match req.IsActive with | some v => v | none => u.IsActive),
                    CreatedAt := u.CreatedAt, UpdatedAt := u.UpdatedAt },
                Event.LogError ("Failed to update user: " ++ err.Error)] })
      | (.ok t, st2) =>
        (.ok (toUserResponse
            { ID := u.ID, Email := u.Email, Username := u.Username, Password := u.Password,
              FirstName := (match req.FirstName with | some v => v | none => u.FirstName),
              LastName := (match req.LastName with | some v => v | none => u.LastName),
              IsActive := (match req.IsActive with | some v => v | none => u.IsActive),
              CreatedAt := u.CreatedAt, UpdatedAt := t }),
          { ext := st2
            trace := w.trace ++
              [Event.GetByID id,
                Event.Update id
                  { ID := u.ID, Email := u.Email, Username := u.Username,
                    Password := u.Password,
                    FirstName := (match req.FirstName with | some v => v | none => u.FirstName),
                    LastName := (match req.LastName with | some v => v | none => u.LastName),
                    IsActive := (match req.IsActive with | some v => v | none => u.IsActive),
                    CreatedAt := u.CreatedAt, UpdatedAt := u.UpdatedAt }] }) := by
  rcases req with ⟨_ | f, _ | l, _ | a⟩ <;>
  · simp only [userService.UpdateUser, call, hGet]
    generalize s.userRepo.Update id _ st1 = r
    rcases r with ⟨e | t, st2⟩ <;> simp [logError]

/-- C1.  When both lookups report the not-found sentinel and the hasher and the store's
`Create` succeed, `CreateUser` succeeds.  The entity handed to `Create` carries the request's
email, handle and names, `IsActive = true` and, as `Password`, the output of the hasher for
the request's credential.  The returned projection is the record of the same email, handle
and names with `IsActive = true` and the identifier and timestamps the store assigned:
none of its eight fields is computed from the credential or from its hash. -/
theorem createUser_fresh_succeeds {σ : Type} (s : userService σ) (req : CreateUserRequest)
    (w : World σ) (e1 e2 : GoError) (st1 st2 st3 st4 : σ) (hashed : String) (a : Assigned)
    (entity : User)
    (hEmail : s.userRepo.GetByEmail req.Email w.ext = (.error e1, st1))
    (_hEmailMissing : e1.IsErrNoDocuments = true)
    (hName : s.userRepo.GetByUsername req.Username st1 = (.error e2, st2))
    (_hNameMissing : e2.IsErrNoDocuments = true)
    (hHash : s.GenerateFromPassword req.Password DefaultCost st2 = (.ok hashed, st3))
    (hEntity : entity =
      { ID := NilObjectID, Email := req.Email, Username := req.Username, Password := hashed,
        FirstName := req.FirstName, LastName := req.LastName, IsActive := true,
        CreatedAt := 0, UpdatedAt := 0 })
    (hCreate : s.userRepo.Create entity st3 = (.ok a, st4)) :
    (s.CreateUser req w).1 = .ok
        { ID := a.ID.Hex, Email := req.Email, Username := req.Username,
          FirstName := req.FirstName, LastName := req.LastName, IsActive := true,
          CreatedAt := a.CreatedAt, UpdatedAt := a.UpdatedAt } ∧
      (s.CreateUser req w).2.trace = w.trace ++
        [Event.GetByEmail req.Email, Event.GetByUsername req.Username,
          Event.GenerateFromPassword req.Password DefaultCost, Event.Create entity] ∧
      (s.CreateUser req w).2.ext = st4 ∧
      entity.Email = req.Email ∧ entity.Username = req.Username ∧
      entity.FirstName = req.FirstName ∧ entity.LastName = req.LastName ∧
      entity.IsActive = true ∧ entity.Password = hashed := by
  subst hEntity
  simp [userService.CreateUser, call, hEmail, hName, hHash, hCreate, toUserResponse,
    Assigned.applyTo]

/-- Instance of C1: creating `alice` in the empty in-memory store. -/
theorem createUser_fresh_succeeds_witness :
    memRepo.GetByEmail aliceReq.Email emptyWorld.ext = (.error .ErrNoDocuments, emptyWorld.ext) ∧
    memRepo.GetByUsername aliceReq.Username emptyWorld.ext =
      (.error .ErrNoDocuments, emptyWorld.ext) ∧
    (svc.CreateUser aliceReq emptyWorld).1 = .ok
        { ID := "000000000000000000000001", Email := "a@x.com", Username := "alice",
          FirstName := "Alice", LastName := "A", IsActive := true,
          CreatedAt := 5, UpdatedAt := 5 } ∧
    (svc.CreateUser aliceReq emptyWorld).2.trace =
        [Event.GetByEmail "a@x.com", Event.GetByUsername "alice",
          Event.GenerateFromPassword "pw123456" 10, Event.Create aliceEntity] :=
  ⟨rfl, rfl,
    (createUser_fresh_succeeds svc aliceReq emptyWorld .ErrNoDocuments .ErrNoDocuments
      emptyWorld.ext emptyWorld.ext emptyWorld.ext
      { users := [alice], clock := 6, lookupsFail := false, writesFail := false }
      "$2a$10$654321wp" { ID := mkID 1, CreatedAt := 5, UpdatedAt := 5 } aliceEntity
      rfl rfl rfl rfl rfl rfl rfl).1,
    (createUser_fresh_succeeds svc aliceReq emptyWorld .ErrNoDocuments .ErrNoDocuments
      emptyWorld.ext emptyWorld.ext emptyWorld.ext
      { users := [alice], clock := 6, lookupsFail := false, writesFail := false }
      "$2a$10$654321wp" { ID := mkID 1, CreatedAt := 5, UpdatedAt := 5 } aliceEntity
      rfl rfl rfl rfl rfl rfl rfl).2.1⟩

/-- C2.  When the lookup by the request's email finds a user, `CreateUser` fails with the
email conflict error.  Nothing is assumed about the lookup by handle, and the only call made is
the lookup by email: neither the hasher nor the store's `Create` is invoked, and the outside
state is the one that lookup left. -/
theorem createUser_email_conflict {σ : Type} (s : userService σ) (req : CreateUserRequest)
    (w : World σ) (u : User) (st1 : σ)
    (hEmail : s.userRepo.GetByEmail req.Email w.ext = (.ok u, st1)) :
    s.CreateUser req w =
      (.error (.New "user with this email already exists"),
        { ext := st1, trace := w.trace ++ [Event.GetByEmail req.Email] }) := by
  simp [userService.CreateUser, call, hEmail]

/-- Instance of C2: creating `alice` a second time. -/
theorem createUser_email_conflict_witness :
    memRepo.GetByEmail aliceReq.Email aliceWorld.ext = (.ok alice, aliceWorld.ext) ∧
    svc.CreateUser aliceReq aliceWorld =
      (.error (.New "user with this email already exists"),
        { ext := aliceWorld.ext,
          trace := aliceWorld.trace ++ [Event.GetByEmail aliceReq.Email] }) :=
  ⟨rfl, createUser_email_conflict svc aliceReq aliceWorld alice aliceWorld.ext rfl⟩

/-- C3.  When `GetByID` reports the not-found sentinel, `GetUser`, `UpdateUser` (for every
request) and `DeleteUser` each fail with the error "user not found", which is none of the
internal errors; the only call made is that lookup, so the store's `Update` and `Delete`
are not invoked and the outside state is the one the lookup left. -/
theorem notFound_on_missing_id {σ : Type} (s : userService σ) (id : String) (w : World σ)
    (err : GoError) (st1 : σ)
    (hGet : s.userRepo.GetByID id w.ext = (.error err, st1))
    (hSentinel : err.IsErrNoDocuments = true) :
    s.GetUser id w =
        (.error (.New "user not found"),
          { ext := st1, trace := w.trace ++ [Event.GetByID id] }) ∧
    (∀ req : UpdateUserRequest, s.UpdateUser id req w =
        (.error (.New "user not found"),
          { ext := st1, trace := w.trace ++ [Event.GetByID id] })) ∧
    s.DeleteUser id w =
        (.error (.New "user not found"),
          { ext := st1, trace := w.trace ++ [Event.GetByID id] }) ∧
    (s.GetUser id w).1 ≠ .error (.New "failed to get user") ∧
    (∀ req : UpdateUserRequest,
      (s.UpdateUser id req w).1 ≠ .error (.New "failed to get user") ∧
      (s.UpdateUser id req w).1 ≠ .error (.New "failed to update user")) ∧
    (s.DeleteUser id w).1 ≠ .error (.New "failed to get user") ∧
    (s.DeleteUser id w).1 ≠ .error (.New "failed to delete user") := by
  simp [userService.GetUser, userService.UpdateUser, userService.DeleteUser, call, hGet,
    hSentinel]

/-- Instance of C3: an identifier the empty in-memory store does not hold. -/
theorem notFound_on_missing_id_witness :
    memRepo.GetByID "000000000000000000000001" emptyWorld.ext =
      (.error .ErrNoDocuments, emptyWorld.ext) ∧
    svc.DeleteUser "000000000000000000000001" emptyWorld =
      (.error (.New "user not found"),
        { ext := emptyWorld.ext,
          trace := emptyWorld.trace ++ [Event.GetByID "000000000000000000000001"] }) :=
  ⟨rfl, (notFound_on_missing_id svc "000000000000000000000001" emptyWorld .ErrNoDocuments
    emptyWorld.ext rfl rfl).2.2.1⟩

/-- C4.  For an existing user `u`, the entity `UpdateUser` hands to the store's `Update`,
right after the lookup, is `u` with `FirstName`, `LastName` and `IsActive` replaced by the
request's value exactly when the field is present (a present empty string overwrites, an
absent field keeps the old value); identifier, email, handle, credential hash and timestamps
are those of `u`, and with no field present the entity equals `u`.  When `Update` succeeds
the result is the projection of that merged entity as the store left it behind the pointer
(its `UpdatedAt` possibly refreshed). -/
theorem updateUser_merges_present_fields {σ : Type} (s : userService σ) (id : String)
    (req : UpdateUserRequest) (w : World σ) (u entity : User) (st1 : σ)
    (hGet : s.userRepo.GetByID id w.ext = (.ok u, st1))
    (hEntity : entity =
      { ID := u.ID, Email := u.Email, Username := u.Username, Password := u.Password,
        FirstName := (match req.FirstName with | some v => v | none => u.FirstName),
        LastName := (match req.LastName with | some v => v | none => u.LastName),
        IsActive := (match req.IsActive with | some v => v | none => u.IsActive),
        CreatedAt := u.CreatedAt, UpdatedAt := u.UpdatedAt }) :
    (∃ rest, (s.UpdateUser id req w).2.trace =
        w.trace ++ [Event.GetByID id, Event.Update id entity] ++ rest ∧
        ∀ ev ∈ rest, ∃ text, ev = Event.LogError text) ∧
      (req.FirstName = none → req.LastName = none → req.IsActive = none → entity = u) ∧
      (∀ (t : Time) (st2 : σ), s.userRepo.Update id entity st1 = (.ok t, st2) →
        s.UpdateUser id req w =
          (.ok (toUserResponse { entity with UpdatedAt := t }),
            { ext := st2,
              trace := w.trace ++ [Event.GetByID id, Event.Update id entity] })) := by
  subst hEntity
  have hrun := updateUser_of_found s id req w u st1 hGet
  refine ⟨?_, ?_, ?_⟩
  · rw [hrun]
    generalize s.userRepo.Update id _ st1 = r
    rcases r with ⟨e | t, st2⟩
    · exact ⟨[Event.LogError ("Failed to update user: " ++ e.Error)], by simp, by simp⟩
    · exact ⟨[], by simp, by simp⟩
  · intro h1 h2 h3
    simp [h1, h2, h3]
  · intro t st2 hU
    rw [hrun, hU]

/-- Instance of C4: deactivating `alice` leaves her names in place. -/
theorem updateUser_merges_present_fields_witness :
    memRepo.GetByID "000000000000000000000001" aliceWorld.ext = (.ok alice, aliceWorld.ext) ∧
    svc.UpdateUser "000000000000000000000001" ⟨none, none, some false⟩ aliceWorld =
      (.ok { ID := "000000000000000000000001", Email := "a@x.com", Username := "alice",
             FirstName := "Alice", LastName := "A", IsActive := false,
             CreatedAt := 5, UpdatedAt := 6 },
        { ext :=
            { users := [{ alice with IsActive := false, UpdatedAt := 6 }], clock := 7,
              lookupsFail := false, writesFail := false },
          trace :=
            [Event.GetByID "000000000000000000000001",
              Event.Update "000000000000000000000001" { alice with IsActive := false }] }) :=
  ⟨rfl,
    (updateUser_merges_present_fields svc "000000000000000000000001"
      ⟨none, none, some false⟩ aliceWorld alice { alice with IsActive := false }
      aliceWorld.ext rfl rfl).2.2 6
      { users := [{ alice with IsActive := false, UpdatedAt := 6 }], clock := 7,
        lookupsFail := false, writesFail := false } rfl⟩

/-- C5.  The projection does not depend on the credential hash: replacing `Password` leaves
`toUserResponse` unchanged, its identifier is the hexadecimal rendering of the entity's and
its other seven fields are copied.  Every user value returned by `CreateUser`, `GetUser`,
`UpdateUser` and `ListUsers` is the `toUserResponse` image of a store entity: the entity
created (with what the store assigned), the entity fetched, the entity updated (as the store
left it), and the entities listed, in order. -/
theorem projection_independent_of_hash {σ : Type} (s : userService σ) (w : World σ) :
    (∀ (u : User) (p : String), toUserResponse { u with Password := p } = toUserResponse u) ∧
    (∀ u : User, toUserResponse u =
      { ID := u.ID.Hex, Email := u.Email, Username := u.Username, FirstName := u.FirstName,
        LastName := u.LastName, IsActive := u.IsActive, CreatedAt := u.CreatedAt,
        UpdatedAt := u.UpdatedAt }) ∧
    (∀ req r, (s.CreateUser req w).1 = .ok r →
      ∃ (entity : User) (a : Assigned) (st : σ),
        (s.userRepo.Create entity st).1 = .ok a ∧
        Event.Create entity ∈ (s.CreateUser req w).2.trace ∧
        r = toUserResponse (a.applyTo entity)) ∧
    (∀ id r, (s.GetUser id w).1 = .ok r →
      ∃ u, (s.userRepo.GetByID id w.ext).1 = .ok u ∧ r = toUserResponse u) ∧
    (∀ id req r, (s.UpdateUser id req w).1 = .ok r →
      ∃ (entity : User) (t : Time) (st : σ),
        (s.userRepo.Update id entity st).1 = .ok t ∧
        Event.Update id entity ∈ (s.UpdateUser id req w).2.trace ∧
        r = toUserResponse { entity with UpdatedAt := t }) ∧
    (∀ page limit rs total, (s.ListUsers page limit w).1 = .ok (rs, total) →
      ∃ (us : List User) (offset limit' : Int),
        (s.userRepo.List offset limit' w.ext).1 = .ok (us, total) ∧
        rs = us.map toUserResponse) := by
  refine ⟨fun u p => rfl, fun u => rfl, ?_, ?_, ?_, ?_⟩
  · intro req r hr
    rcases h1 : s.userRepo.GetByEmail req.Email w.ext with ⟨e1 | u1, st1⟩
    · rcases h2 : s.userRepo.GetByUsername req.Username st1 with ⟨e2 | u2, st2⟩
      · rcases h3 : s.GenerateFromPassword req.Password DefaultCost st2 with ⟨e3 | hashed, st3⟩
        · simp [userService.CreateUser, call, h1, h2, h3] at hr
        · rcases h4 : s.userRepo.Create
            { ID := NilObjectID, Email := req.Email, Username := req.Username,
              Password := hashed, FirstName := req.FirstName, LastName := req.LastName,
              IsActive := true, CreatedAt := 0, UpdatedAt := 0 } st3 with ⟨e4 | a, st4⟩
          · simp [userService.CreateUser, call, h1, h2, h3, h4] at hr
          · refine ⟨_, a, st3, by rw [h4], ?_, ?_⟩
            · simp [userService.CreateUser, call, h1, h2, h3, h4]
            · simp [userService.CreateUser, call, h1, h2, h3, h4] at hr
              exact hr.symm
      · simp [userService.CreateUser, call, h1, h2] at hr
    · simp [userService.CreateUser, call, h1] at hr
  · intro id r hr
    rcases h1 : s.userRepo.GetByID id w.ext with ⟨e1 | u1, st1⟩
    · by_cases hs : e1.IsErrNoDocuments = true <;>
        simp [userService.GetUser, call, h1, hs] at hr
    · simp [userService.GetUser, call, h1] at hr ⊢
      exact hr.symm
  · intro id req r hr
    rcases h1 : s.userRepo.GetByID id w.ext with ⟨e1 | u1, st1⟩
    · by_cases hs : e1.IsErrNoDocuments = true <;>
        simp [userService.UpdateUser, call, h1, hs] at hr
    · have hrun := updateUser_of_found s id req w u1 st1 h1
      rw [hrun] at hr ⊢
      rcases h2 : s.userRepo.Update id
        { ID := u1.ID, Email := u1.Email, Username := u1.Username, Password := u1.Password,
          FirstName := (match req.FirstName with | some v => v | none => u1.FirstName),
          LastName := (match req.LastName with | some v => v | none => u1.LastName),
          IsActive := (match req.IsActive with | some v => v | none => u1.IsActive),
          CreatedAt := u1.CreatedAt, UpdatedAt := u1.UpdatedAt } st1 with ⟨e2 | t, st2⟩
      · simp [h2] at hr
      · refine ⟨_, t, st1, by rw [h2], ?_, ?_⟩
        · simp [h2]
        · simp [h2] at hr
          exact hr.symm
  · intro page limit rs total hr
    rcases h1 : s.userRepo.List
      (wrapInt (((if page < 1 then 1 else page) - 1) *
        (if limit < 1 ∨ limit > 100 then 10 else limit)))
      (if limit < 1 ∨ limit > 100 then 10 else limit) w.ext with ⟨e1 | ⟨us, tot⟩, st1⟩
    · simp only [userService.ListUsers, call, h1] at hr
      simp at hr
    · simp only [userService.ListUsers, call, h1] at hr
      simp at hr
      exact ⟨us, _, _, by rw [h1, hr.2], hr.1.symm⟩

/-- Instance of C5: fetching `alice` returns her projection. -/
theorem projection_independent_of_hash_witness :
    (svc.GetUser "000000000000000000000001" aliceWorld).1 =
      .ok { ID := "000000000000000000000001", Email := "a@x.com", Username := "alice",
            FirstName := "Alice", LastName := "A", IsActive := true,
            CreatedAt := 5, UpdatedAt := 5 } ∧
    ∃ u, (memRepo.GetByID "000000000000000000000001" aliceWorld.ext).1 = .ok u ∧
      ({ ID := "000000000000000000000001", Email := "a@x.com", Username := "alice",
         FirstName := "Alice", LastName := "A", IsActive := true,
         CreatedAt := 5, UpdatedAt := 5 } : UserResponse) = toUserResponse u :=
  ⟨rfl, (projection_independent_of_hash svc aliceWorld).2.2.2.1
    "000000000000000000000001" _ rfl⟩

/-- C6 (amended).  `ListUsers` calls the store's `List` exactly once, with `limit'` and the
offset `(page' - 1) * limit'` computed as a 64-bit Go `int`, where `page'` is `1` for
`page < 1` and `page` otherwise and `limit'` is `10` for `limit` outside `[1, 100]` and `limit`
otherwise; no other store call is made.  The offset is the exact product whenever the product
is at most `2^63 - 1`, in particular whenever `page ≤ 92233720368547758`.  On store success
the result is the projections of the store's users, in order and number, with the store's
total.  `ListUsers 0 0` is `ListUsers 1 10`, `ListUsers 2 10` requests offset 10, and
normalised arguments are left as they are. -/
theorem listUsers_normalizes_and_pages {σ : Type} (s : userService σ) (page limit : Int)
    (w : World σ) (page' limit' offset : Int)
    (hPage : page' = if page < 1 then 1 else page)
    (hLimit : limit' = if limit < 1 ∨ limit > 100 then 10 else limit)
    (hOffset : offset = wrapInt ((page' - 1) * limit')) :
    (∃ rest, (s.ListUsers page limit w).2.trace = w.trace ++ Event.List offset limit' :: rest ∧
      ∀ ev ∈ rest, ∃ text, ev = Event.LogError text) ∧
    ((page' - 1) * limit' ≤ maxInt → offset = (page' - 1) * limit') ∧
    (page ≤ 92233720368547758 → offset = (page' - 1) * limit') ∧
    (∀ users total st1, s.userRepo.List offset limit' w.ext = (.ok (users, total), st1) →
      s.ListUsers page limit w =
        (.ok (users.map toUserResponse, total),
          { ext := st1, trace := w.trace ++ [Event.List offset limit'] }) ∧
      (users.map toUserResponse).length = users.length) ∧
    s.ListUsers 0 0 w = s.ListUsers 1 10 w ∧
    (∃ rest, (s.ListUsers 2 10 w).2.trace = w.trace ++ Event.List 10 10 :: rest) ∧
    s.ListUsers page' limit' w = s.ListUsers page limit w := by
  have hp1 : 1 ≤ page' := by rw [hPage]; split <;> omega
  have hl1 : 1 ≤ limit' ∧ limit' ≤ 100 := by rw [hLimit]; split <;> omega
  have hnp' : (if page' < 1 then 1 else page') = page' := by split <;> omega
  have hnl' : (if limit' < 1 ∨ limit' > 100 then 10 else limit') = limit' := by
    split <;> omega
  have hexact : (page' - 1) * limit' ≤ maxInt → offset = (page' - 1) * limit' := by
    intro h
    have h0 : 0 ≤ (page' - 1) * limit' := mul_nonneg (by omega) (by omega)
    rw [hOffset]
    unfold wrapInt
    unfold maxInt at h
    omega
  refine ⟨?_, hexact, ?_, ?_, ?_, ?_, ?_⟩
  · rcases h1 : s.userRepo.List offset limit' w.ext with ⟨e1 | ⟨us, tot⟩, st1⟩
    · refine ⟨[Event.LogError ("Failed to list users: " ++ e1.Error)], ?_, by simp⟩
      simp [userService.ListUsers, call, ← hPage, ← hLimit, ← hOffset, h1, logError]
    · refine ⟨[], ?_, by simp⟩
      simp [userService.ListUsers, call, ← hPage, ← hLimit, ← hOffset, h1]
  · intro h
    apply hexact
    have h2 : page' ≤ 92233720368547758 := by rw [hPage]; split <;> omega
    have : (page' - 1) * limit' ≤ 92233720368547757 * 100 :=
      mul_le_mul (by omega) hl1.2 (by omega) (by omega)
    unfold maxInt
    omega
  · intro users total st1 h1
    simp [userService.ListUsers, call, ← hPage, ← hLimit, ← hOffset, h1]
  · simp [userService.ListUsers]
  · rcases h1 : s.userRepo.List 10 10 w.ext with ⟨e1 | ⟨us, tot⟩, st1⟩
    · exact ⟨[Event.LogError ("Failed to list users: " ++ e1.Error)], by
        simp [userService.ListUsers, call, wrapInt, h1, logError]⟩
    · exact ⟨[], by simp [userService.ListUsers, call, wrapInt, h1]⟩
  · simp only [userService.ListUsers, ← hPage, ← hLimit, hnp', hnl']

/-- Instance of C6: page 0 with limit 0 is served as page 1 with limit 10. -/
theorem listUsers_normalizes_and_pages_witness :
    (1 : Int) = (if (0 : Int) < 1 then 1 else 0) ∧
    (10 : Int) = (if (0 : Int) < 1 ∨ (0 : Int) > 100 then 10 else 0) ∧
    (0 : Int) = wrapInt ((1 - 1) * 10) ∧
    svc.ListUsers 0 0 aliceWorld =
      (.ok ([alice].map toUserResponse, 1),
        { ext := aliceWorld.ext, trace := aliceWorld.trace ++ [Event.List 0 10] }) :=
  ⟨by decide, by decide, by decide,
    ((listUsers_normalizes_and_pages svc 0 0 aliceWorld 1 10 0 (by decide) (by decide)
      (by decide)).2.2.2.1 [alice] 1 aliceWorld.ext rfl).1⟩

/-- Counterexample to C6 as stated: for `page = 2^63 - 1` and `limit = 10` the store is asked
for offset `-20`, not for `(page' - 1) * limit'`. -/
theorem listUsers_offset_wraps :
    (svc.ListUsers 9223372036854775807 10 aliceWorld).2.trace = [Event.List (-20) 10] ∧
    ((if (9223372036854775807 : Int) < 1 then 1 else 9223372036854775807) - 1) *
      (if (10 : Int) < 1 ∨ (10 : Int) > 100 then 10 else 10) ≠ (-20 : Int) :=
  ⟨by decide, by decide⟩

/-! ## The envelopes and the transport adapter -/

/-- C7 (amended).  For every total with `0 ≤ total < 2^53` and every limit `≥ 1` of Go's `int`,
the `total_pages` that `Paginated` puts in the pagination metadata is `ceil(total / limit)`
exactly: the least integer `n` with `n * limit ≥ total`, equal to `total / limit` when
`total` is a multiple of `limit` and to `0` when `total = 0`. -/
theorem paginated_totalPages_exact (statusCode : Int) (message : String)
    (data : List UserResponse) (page total limit : Int)
    (hTotal : 0 ≤ total) (hTotal53 : total < 2 ^ 53) (hLimit : 1 ≤ limit)
    (_hLimitInt : limit ≤ maxInt) :
    response.Paginated statusCode message data page limit total =
      .jsonPaginated statusCode
        { Success := true, Message := message, Data := data,
          Pagination :=
            { Page := page, Limit := limit, Total := total,
              TotalPages := some ⌈(total : ℚ) / (limit : ℚ)⌉ } } ∧
    (∀ n : Int, total ≤ n * limit ↔ ⌈(total : ℚ) / (limit : ℚ)⌉ ≤ n) ∧
    (limit ∣ total → ⌈(total : ℚ) / (limit : ℚ)⌉ = total / limit) ∧
    (total = 0 → ⌈(total : ℚ) / (limit : ℚ)⌉ = 0) := by
  have hl : (0 : ℚ) < (limit : ℚ) := by exact_mod_cast (by omega : (0 : Int) < limit)
  refine ⟨?_, ?_, ?_, ?_⟩
  · simp [response.Paginated, totalPages_eq_ceil total limit hTotal hTotal53 hLimit]
  · intro n
    rw [Int.ceil_le, div_le_iff₀ hl]
    exact_mod_cast Iff.rfl
  · rintro ⟨k, rfl⟩
    have hne : (limit : ℚ) ≠ 0 := hl.ne'
    have h1 : ((limit * k : Int) : ℚ) / (limit : ℚ) = ((k : Int) : ℚ) := by
      push_cast; field_simp
    rw [h1, Int.ceil_intCast, Int.mul_ediv_cancel_left k (by omega)]
  · rintro rfl
    simp

/-- Instance of C7: twenty users in pages of ten make two pages. -/
theorem paginated_totalPages_exact_witness :
    (0 : Int) ≤ 20 ∧ (20 : Int) < 2 ^ 53 ∧ (1 : Int) ≤ 10 ∧ (10 : Int) ≤ maxInt ∧
    response.Paginated 200 "Users retrieved successfully" [] 2 10 20 =
      .jsonPaginated 200
        { Success := true, Message := "Users retrieved successfully", Data := [],
          Pagination :=
            { Page := 2, Limit := 10, Total := 20,
              TotalPages := some ⌈((20 : Int) : ℚ) / ((10 : Int) : ℚ)⌉ } } ∧
    ⌈((20 : Int) : ℚ) / ((10 : Int) : ℚ)⌉ = 20 / 10 :=
  ⟨by decide, by decide, by decide, by decide,
    (paginated_totalPages_exact 200 "Users retrieved successfully" [] 2 20 10 (by decide)
      (by decide) (by decide) (by decide)).1,
    (paginated_totalPages_exact 200 "Users retrieved successfully" [] 2 20 10 (by decide)
      (by decide) (by decide) (by decide)).2.2.1 (by decide)⟩

/-- Counterexample to C7 as stated: for `total = 2^53 + 1` and `limit = 1` the metadata
reports `2^53` pages, which is not the ceiling: `2^53 * 1` is less than the total. -/
theorem paginated_totalPages_rounds :
    response.Paginated 200 "Users retrieved successfully" [] 1 1 9007199254740993 =
      .jsonPaginated 200
        { Success := true, Message := "Users retrieved successfully", Data := [],
          Pagination :=
            { Page := 1, Limit := 1, Total := 9007199254740993,
              TotalPages := some 9007199254740992 } } ∧
    ¬ ((9007199254740992 : Int) * 1 ≥ 9007199254740993) :=
  ⟨by decide, by decide⟩

/-- C8 (amended).  For every error `err` the service returns: the create path answers 400;
the get, update and delete paths answer 404 when the text of `err` is "user not found" and
500 otherwise; the list path answers 500. -/
theorem handler_status_of_service_error {σ : Type} (h : UserHandler σ) (w w1 : World σ)
    (err : GoError) :
    (∀ req, h.userService.CreateUser req w = (.error err, w1) →
      (h.CreateUser (.ok req) w).1.status = 400) ∧
    (∀ id, id ≠ "" → h.userService.GetUser id w = (.error err, w1) →
      (h.GetUser id w).1.status = if err.Error = "user not found" then 404 else 500) ∧
    (∀ id req, id ≠ "" → h.userService.UpdateUser id req w = (.error err, w1) →
      (h.UpdateUser id (.ok req) w).1.status =
        if err.Error = "user not found" then 404 else 500) ∧
    (∀ id, id ≠ "" → h.userService.DeleteUser id w = (.error err, w1) →
      (h.DeleteUser id w).1.status = if err.Error = "user not found" then 404 else 500) ∧
    (∀ pageQuery limitQuery,
      h.userService.ListUsers (strconv.Atoi (pageQuery.getD "1"))
        (strconv.Atoi (limitQuery.getD "10")) w = (.error err, w1) →
      (h.ListUsers pageQuery limitQuery w).1.status = 500) := by
  refine ⟨?_, ?_, ?_, ?_, ?_⟩
  · intro req hs
    simp [UserHandler.CreateUser, hs, response.Error, response.Sent.status,
      http.StatusBadRequest]
  · intro id hid hs
    by_cases hn : err.Error = "user not found" <;>
      simp [UserHandler.GetUser, hid, hs, hn, response.Error, response.Sent.status,
        http.StatusNotFound, http.StatusInternalServerError]
  · intro id req hid hs
    by_cases hn : err.Error = "user not found" <;>
      simp [UserHandler.UpdateUser, hid, hs, hn, response.Error, response.Sent.status,
        http.StatusNotFound, http.StatusInternalServerError]
  · intro id hid hs
    by_cases hn : err.Error = "user not found" <;>
      simp [UserHandler.DeleteUser, hid, hs, hn, response.Error, response.Sent.status,
        http.StatusNotFound, http.StatusInternalServerError]
  · intro p l hs
    simp [UserHandler.ListUsers, hs, response.Error, response.Sent.status,
      http.StatusInternalServerError]

/-- Instance of C8: a conflict on the create path answers 400, a missing user on the delete
path answers 404. -/
theorem handler_status_of_service_error_witness :
    (hdl.CreateUser (.ok aliceReq) aliceWorld).1.status = 400 ∧
    (hdl.DeleteUser "000000000000000000000001" emptyWorld).1.status =
      (if (GoError.New "user not found").Error = "user not found" then 404 else 500) :=
  ⟨(handler_status_of_service_error hdl aliceWorld
      { ext := aliceWorld.ext, trace := [Event.GetByEmail "a@x.com"] }
      (.New "user with this email already exists")).1 aliceReq rfl,
    (handler_status_of_service_error hdl emptyWorld
      { ext := emptyWorld.ext, trace := [Event.GetByID "000000000000000000000001"] }
      (.New "user not found")).2.2.2.1 "000000000000000000000001" (by decide) rfl⟩

/-- Counterexample to C8 as stated: on the update path an error of the service other than
"user not found" (here the store rejects the write) is answered with 500, not 400. -/
theorem update_path_internal_error_is_500 :
    (svc.UpdateUser "000000000000000000000001" ⟨none, none, some false⟩ readOnlyWorld).1 =
      .error (.New "failed to update user") ∧
    (hdl.UpdateUser "000000000000000000000001" (.ok ⟨none, none, some false⟩)
      readOnlyWorld).1.status = 500 ∧
    (hdl.UpdateUser "000000000000000000000001" (.ok ⟨none, none, some false⟩)
      readOnlyWorld).1.status ≠ 400 :=
  ⟨rfl, rfl, by decide⟩

/-- C9 (the code at the failing input).  For the query `page=0&limit=0` the service fetches
with offset 0 and limit 10, as for `page=1&limit=10`, but the metadata of the response
reports page 0 and limit 0, and a `total_pages` that is the conversion of a division by
zero; for `page=1&limit=10` it reports page 1, limit 10 and one page. -/
theorem listUsers_handler_reports_raw_query :
    (hdl.ListUsers (some "0") (some "0") aliceWorld).2.trace = [Event.List 0 10] ∧
    (hdl.ListUsers (some "0") (some "0") aliceWorld).1 =
      .jsonPaginated 200
        { Success := true, Message := "Users retrieved successfully",
          Data := [toUserResponse alice],
          Pagination := { Page := 0, Limit := 0, Total := 1, TotalPages := none } } ∧
    (hdl.ListUsers (some "1") (some "10") aliceWorld).2.trace = [Event.List 0 10] ∧
    (hdl.ListUsers (some "1") (some "10") aliceWorld).1 =
      .jsonPaginated 200
        { Success := true, Message := "Users retrieved successfully",
          Data := [toUserResponse alice],
          Pagination := { Page := 1, Limit := 10, Total := 1, TotalPages := some 1 } } :=
  ⟨by decide, by decide, by decide, by decide⟩

/-- C10.  `CreateUser` fails with a conflict error exactly when the lookup by email, or else
the lookup by handle that follows it, returns without error: every lookup error, whether or
not it is the not-found sentinel, counts as "no such user".  So when both lookups fail with
arbitrary errors and the hasher and the store's `Create` succeed, `CreateUser` succeeds and
the record is handed to `Create`. -/
theorem createUser_conflict_iff_lookup_succeeds {σ : Type} (s : userService σ)
    (req : CreateUserRequest) (w : World σ) :
    (((s.CreateUser req w).1 = .error (.New "user with this email already exists") ∨
        (s.CreateUser req w).1 = .error (.New "user with this username already exists")) ↔
      ((∃ u, (s.userRepo.GetByEmail req.Email w.ext).1 = .ok u) ∨
        (∃ u, (s.userRepo.GetByUsername req.Username
          (s.userRepo.GetByEmail req.Email w.ext).2).1 = .ok u))) ∧
    (∀ (e1 e2 : GoError) (st1 st2 st3 st4 : σ) (hashed : String) (a : Assigned)
      (entity : User),
      s.userRepo.GetByEmail req.Email w.ext = (.error e1, st1) →
      s.userRepo.GetByUsername req.Username st1 = (.error e2, st2) →
      s.GenerateFromPassword req.Password DefaultCost st2 = (.ok hashed, st3) →
      entity =
        { ID := NilObjectID, Email := req.Email, Username := req.Username, Password := hashed,
          FirstName := req.FirstName, LastName := req.LastName, IsActive := true,
          CreatedAt := 0, UpdatedAt := 0 } →
      s.userRepo.Create entity st3 = (.ok a, st4) →
      s.CreateUser req w =
        (.ok (toUserResponse (a.applyTo entity)),
          { ext := st4
            trace := w.trace ++
              [Event.GetByEmail req.Email, Event.GetByUsername req.Username,
                Event.GenerateFromPassword req.Password DefaultCost,
                Event.Create entity] })) := by
  constructor
  · rcases h1 : s.userRepo.GetByEmail req.Email w.ext with ⟨e1 | u1, st1⟩
    · rcases h2 : s.userRepo.GetByUsername req.Username st1 with ⟨e2 | u2, st2⟩
      · rcases h3 : s.GenerateFromPassword req.Password DefaultCost st2 with ⟨e3 | hashed, st3⟩
        · simp [userService.CreateUser, call, h1, h2, h3]
        · rcases h4 : s.userRepo.Create
            { ID := NilObjectID, Email := req.Email, Username := req.Username,
              Password := hashed, FirstName := req.FirstName, LastName := req.LastName,
              IsActive := true, CreatedAt := 0, UpdatedAt := 0 } st3 with ⟨e4 | a, st4⟩
          · simp [userService.CreateUser, call, h1, h2, h3, h4]
          · simp [userService.CreateUser, call, h1, h2, h3, h4]
      · simp [userService.CreateUser, call, h1, h2]
    · simp [userService.CreateUser, call, h1]
  · intro e1 e2 st1 st2 st3 st4 hashed a entity h1 h2 h3 he h4
    subst he
    simp [userService.CreateUser, call, h1, h2, h3, h4]

/-- Instance of C10: with a store whose lookups fail with "connection refused", creating
`alice` succeeds and stores the record. -/
theorem createUser_conflict_iff_lookup_succeeds_witness :
    memRepo.GetByEmail aliceReq.Email blindWorld.ext = (.error connErr, blindWorld.ext) ∧
    memRepo.GetByUsername aliceReq.Username blindWorld.ext =
      (.error connErr, blindWorld.ext) ∧
    connErr.IsErrNoDocuments = false ∧
    svc.CreateUser aliceReq blindWorld =
      (.ok (toUserResponse alice),
        { ext := { users := [alice], clock := 6, lookupsFail := true, writesFail := false },
          trace :=
            [Event.GetByEmail "a@x.com", Event.GetByUsername "alice",
              Event.GenerateFromPassword "pw123456" 10, Event.Create aliceEntity] }) :=
  ⟨rfl, rfl, rfl,
    (createUser_conflict_iff_lookup_succeeds svc aliceReq blindWorld).2 connErr connErr
      blindWorld.ext blindWorld.ext blindWorld.ext
      { users := [alice], clock := 6, lookupsFail := true, writesFail := false }
      "$2a$10$654321wp" { ID := mkID 1, CreatedAt := 5, UpdatedAt := 5 } aliceEntity
      rfl rfl rfl rfl rfl⟩

end Backend
